import Mathlib

/-!
Verification of the Schwa semantic analyzer (`src/schwa/analyzer.ts` of the
Hawkbat/WAScript repository) against its natural-language specification.

The development is a shallow embedding: the analyzer's data model and the
four analysis passes are translated into executable Lean definitions, and the
spec's claims are settled as theorems about those definitions.

Modelling conventions, used throughout:
* JavaScript objects used as string-keyed maps (`scope.vars`, `scope.funcs`,
  `scope.structs`, `scope.scopes`) are modelled as association lists with
  insert-or-replace update (`jsSet`), which preserves JS property semantics:
  at most one entry per key, replacement keeps the original position.
* The mutable object graph of scopes (children point to parents and vice
  versa) is modelled as an arena: a list of `ScopeData` records indexed by
  allocation order, with parent links as indices.  `rootScope` is index 0.
* AST nodes are identified by their path from the root (list of child
  indices); the mutable `node.scope` / `node.dataType` annotations become
  path-keyed association lists threaded through every function.
* JS truthiness is modelled where the source relies on it: a missing or
  empty-string `dataType` is falsy, any object (including an empty array
  `children`) is truthy.
* Out-of-range child accesses (`n.children[i]` on a malformed tree) would
  throw in JS; the upstream validator rules such trees out.  The model makes
  those accesses total with an explicitly marked fallback; no theorem or
  counterexample below depends on a fallback branch.
-/

set_option linter.unusedVariables false
set_option linter.unreachableTactic false
set_option linter.unusedTactic false

namespace Schwa

/-! ### Definitions: the shallow embedding of `analyzer.ts`, the inputs of
the concrete witnesses, and the auxiliary notions the theorem statements use. -/

/-- Modelled from the spec: the token kinds of `token.ts` (the file is not in
the source snapshot).  Only the kinds the analyzer dispatches on are needed:
the operator tokens of the unary/binary rule tables, the literal kinds
consumed by `DataType.fromTokenType`, and the two cast operators `As`/`To`.
`Other` stands for every remaining kind (identifiers, keywords, ...), which
the analyzer never matches on. -/
inductive TokenType where
  | As | To
  | Neg | NOT | Not
  | Add | Sub | Mul | Div | Mod
  | AND | OR | XOR | ShL | ShR | RotL | RotR
  | Eq | Ne | Lt | Le | Gt | Ge
  | And | Or
  | Int | UInt | Long | ULong | Float | Double | Bool
  | Other
deriving DecidableEq, Repr

/-- The reverse enum mapping `TokenType[n]` of the TypeScript numeric enum:
yields the declaration name, used in diagnostic texts. -/
def TokenType.toName : TokenType → String
  | .As => "As" | .To => "To"
  | .Neg => "Neg" | .NOT => "NOT" | .Not => "Not"
  | .Add => "Add" | .Sub => "Sub" | .Mul => "Mul" | .Div => "Div" | .Mod => "Mod"
  | .AND => "AND" | .OR => "OR" | .XOR => "XOR"
  | .ShL => "ShL" | .ShR => "ShR" | .RotL => "RotL" | .RotR => "RotR"
  | .Eq => "Eq" | .Ne => "Ne" | .Lt => "Lt" | .Le => "Le" | .Gt => "Gt" | .Ge => "Ge"
  | .And => "And" | .Or => "Or"
  | .Int => "Int" | .UInt => "UInt" | .Long => "Long" | .ULong => "ULong"
  | .Float => "Float" | .Double => "Double" | .Bool => "Bool"
  | .Other => "Other"

/-- Modelled from the spec: the AST node kinds of `ast.ts` (not in the source
snapshot); the constructor names are exactly the `AstType.*` identifiers used
by `analyzer.ts`, plus the remaining kinds listed in the spec. -/
inductive AstType where
  | Program | Block
  | StructDef | FunctionDef | VariableDef
  | Global | Map | Access | Const | Export
  | Type | VariableId | FunctionId | StructId | Literal
  | Assignment | BinaryOp | UnaryOp | FunctionCall
  | Arguments | Parameters | Fields
  | Return | ReturnVoid
  | If | Else | ElseIf | While | Break | Continue | Comment | Unknown
deriving DecidableEq, Repr

def DataType.None : String := "void"

def DataType.Invalid : String := "invalid"

def DataType.«Type» : String := "type"

def DataType.Int : String := "int"

def DataType.UInt : String := "uint"

def DataType.Long : String := "long"

def DataType.ULong : String := "ulong"

def DataType.Float : String := "float"

def DataType.Double : String := "double"

def DataType.Bool : String := "bool"

/-- `DataType.fromTokenType` of `datatype.ts`. -/
def DataType.fromTokenType (type : TokenType) : String :=
  if type = TokenType.Int then DataType.Int
  else if type = TokenType.UInt then DataType.UInt
  else if type = TokenType.Long then DataType.Long
  else if type = TokenType.ULong then DataType.ULong
  else if type = TokenType.Float then DataType.Float
  else if type = TokenType.Double then DataType.Double
  else if type = TokenType.Bool then DataType.Bool
  else DataType.Invalid

/-- Alias for `Bool`, needed because `DataType.Bool` (a string constant of the
source enum) shadows the core type inside the `DataType` namespace. -/
abbrev BoolT := Bool

/-- `DataType.isPrimitive` of `datatype.ts`. -/
def DataType.isPrimitive (type : String) : BoolT :=
  if type = DataType.None then true
  else if type = DataType.Invalid then true
  else if type = DataType.«Type» then true
  else if type = DataType.Int then true
  else if type = DataType.UInt then true
  else if type = DataType.Long then true
  else if type = DataType.ULong then true
  else if type = DataType.Float then true
  else if type = DataType.Double then true
  else if type = DataType.Bool then true
  else false

/-- A source token: kind, text, and position (from `token.ts`, via the fields
`analyzer.ts` reads: `type`, `value`, `row`, `column`). -/
structure Token where
  type : TokenType
  value : String
  row : Nat
  column : Nat
deriving DecidableEq, Repr

/-- An AST node: kind tag, source token, the validator's `valid` flag, and the
ordered children.  In the schwa analyzer every node's `children` is an array
(all four passes iterate it unguarded), so an empty list models an empty
array, which is truthy in JS.  The mutable annotations `scope`/`dataType` are
kept outside the tree (path-keyed maps in `AnState`), and the `parent`
back-edge is supplied as the ancestor context of each traversal. -/
inductive AstNode where
  | mk (type : AstType) (token : Token) (valid : Bool) (children : List AstNode)

def AstNode.type : AstNode → AstType
  | .mk t _ _ _ => t

def AstNode.token : AstNode → Token
  | .mk _ tk _ _ => tk

def AstNode.valid : AstNode → Bool
  | .mk _ _ v _ => v

def AstNode.children : AstNode → List AstNode
  | .mk _ _ _ cs => cs

/-- A fallback node for child accesses that would throw in JS (see module
comment); never reachable on validator-accepted trees. -/
def defaultNode : AstNode := .mk .Unknown ⟨.Other, "", 0, 0⟩ true []

/-- Paths identify AST nodes: the list of child indices from the root. -/
abbrev Path := List Nat

/-- The node of `root` at path `p`, if any. -/
def nodeAt (root : AstNode) : Path → Option AstNode
  | [] => some root
  | i :: r =>
    match root.children.get? i with
    | some c => nodeAt c r
    | none => none

/-- A reference to a defining AST node, as stored in symbol records (`node`
fields).  In the source this is an object reference; the analyzer reads only
the node's identity (`if (v.node)`) and its token (for diagnostic spans), so
the model keeps the path and the token. -/
structure NodeRef where
  path : Path
  token : Token
deriving DecidableEq, Repr

/-- Modelled from the spec: severities of `log.ts` (not in the source
snapshot); §6 of the spec lists error, warning, info. -/
inductive LogType where
  | Error | Warning | Info
deriving DecidableEq, Repr

/-- Modelled from the spec: `LogMsg` of `log.ts` (not in the source snapshot);
the constructor call in `Analyzer.logError` shows the fields: severity,
producer tag, message, row, column, length. -/
structure LogMsg where
  type : LogType
  source : String
  msg : String
  row : Nat
  column : Nat
  length : Nat
deriving DecidableEq, Repr

/-- Modelled from the spec: `Variable` of schwa's `scope.ts` (not in the
source snapshot; the older wascript `scope.ts` in the snapshot has the same
constructor without the flags).  Fields per spec §3 and per the analyzer's
writes: id, type, owning scope (arena index), defining node, `offset`, and
the flags `const`, `export` (here `exported`: `export` is a Lean keyword),
`global`, `mapped`, all initially false / 0. -/
structure Variable where
  node : Option NodeRef
  scope : Nat
  id : String
  type : String
  const : Bool := false
  exported : Bool := false
  global : Bool := false
  mapped : Bool := false
  offset : Int := 0
deriving DecidableEq, Repr

/-- Modelled from the spec: `Function` of schwa's `scope.ts` (named `Func`
here; `Function` is taken by Lean core): id, return type, parameter list,
owning scope, defining node, `export` flag. -/
structure Func where
  node : Option NodeRef
  scope : Nat
  id : String
  type : String
  params : List Variable
  exported : Bool := false
deriving DecidableEq, Repr

/-- Modelled from the spec: `Struct` of schwa's `scope.ts`: id, ordered field
list, owning scope, defining node, `export` flag. -/
structure Struct where
  node : Option NodeRef
  scope : Nat
  id : String
  fields : List Variable
  exported : Bool := false
deriving DecidableEq, Repr

/-- Generic JS-object lookup on an association list. -/
def tlookup {κ α : Type} [DecidableEq κ] : List (κ × α) → κ → Option α
  | [], _ => none
  | (k, v) :: rest, key => if k = key then some v else tlookup rest key

/-- JS-object property assignment: replace in place if the key exists
(property order is preserved), otherwise append. -/
def jsSet {κ α : Type} [DecidableEq κ] : List (κ × α) → κ → α → List (κ × α)
  | [], key, v => [(key, v)]
  | (k, w) :: rest, key, v =>
    if k = key then (k, v) :: rest else (k, w) :: jsSet rest key v

/-- JS-object property removal (assignment of `null`/`undefined` is modelled
as absence; both are falsy and compare unequal to every type string). -/
def jsDel {κ α : Type} [DecidableEq κ] : List (κ × α) → κ → List (κ × α)
  | [], _ => []
  | (k, w) :: rest, key =>
    if k = key then rest else (k, w) :: jsDel rest key

/-- Modelled from the spec: `Scope` of schwa's `scope.ts`: id (empty for
anonymous scopes), parent (arena index), defining node, and the four child
maps.  The wascript `scope.ts` in the snapshot has the same shape minus
`structs`, which §3 of the spec adds for schwa. -/
structure ScopeData where
  node : Option NodeRef
  parent : Option Nat
  id : String
  scopes : List (String × Nat) := []
  vars : List (String × Variable) := []
  funcs : List (String × Func) := []
  structs : List (String × Struct) := []
deriving DecidableEq, Repr

/-- The scope arena: all `Scope` objects ever constructed, indexed by
allocation order.  Index 0 is `rootScope`.  Parent indices always point to
earlier entries, so the hierarchical lookups below terminate within
`store.length` steps of fuel. -/
abbrev Store := List ScopeData

def emptyScopeData : ScopeData := ⟨.none, .none, "", [], [], [], []⟩

/-- The scope record at arena index `i` (total; malformed indices yield the
empty record, which cannot occur for indices handed out by `allocScope`). -/
def sdAt (st : Store) (i : Nat) : ScopeData := st.getD i emptyScopeData

namespace Scope

/-- `Scope.getScope` of `scope.ts`: own `scopes` map first, then the parent
chain (fuelled; the fuel `st.length + 1` dominates every ancestor chain). -/
def getScopeAux (st : Store) : Nat → Nat → String → Option Nat
  | 0, _, _ => .none
  | fuel + 1, i, id =>
    match tlookup (sdAt st i).scopes id with
    | some sc => some sc
    | none =>
      match (sdAt st i).parent with
      | some p => getScopeAux st fuel p id
      | none => .none

def getScope (st : Store) (i : Nat) (id : String) : Option Nat :=
  getScopeAux st (st.length + 1) i id

/-- `Scope.getVariable` of `scope.ts`. -/
def getVariableAux (st : Store) : Nat → Nat → String → Option Variable
  | 0, _, _ => .none
  | fuel + 1, i, id =>
    match tlookup (sdAt st i).vars id with
    | some v => some v
    | none =>
      match (sdAt st i).parent with
      | some p => getVariableAux st fuel p id
      | none => .none

def getVariable (st : Store) (i : Nat) (id : String) : Option Variable :=
  getVariableAux st (st.length + 1) i id

/-- `Scope.getFunction` of `scope.ts`. -/
def getFunctionAux (st : Store) : Nat → Nat → String → Option Func
  | 0, _, _ => .none
  | fuel + 1, i, id =>
    match tlookup (sdAt st i).funcs id with
    | some f => some f
    | none =>
      match (sdAt st i).parent with
      | some p => getFunctionAux st fuel p id
      | none => .none

def getFunction (st : Store) (i : Nat) (id : String) : Option Func :=
  getFunctionAux st (st.length + 1) i id

/-- `Scope.getStruct` of `scope.ts` (per spec §3, same hierarchical pattern
as the other three lookups). -/
def getStructAux (st : Store) : Nat → Nat → String → Option Struct
  | 0, _, _ => .none
  | fuel + 1, i, id =>
    match tlookup (sdAt st i).structs id with
    | some s => some s
    | none =>
      match (sdAt st i).parent with
      | some p => getStructAux st fuel p id
      | none => .none

def getStruct (st : Store) (i : Nat) (id : String) : Option Struct :=
  getStructAux st (st.length + 1) i id

end Scope

/-- Mutation of the scope record at index `i` (JS: mutating a `Scope` object
in place; every alias sees the update, which the arena models directly). -/
def modifyScope (st : Store) (i : Nat) (f : ScopeData → ScopeData) : Store :=
  st.modify f i

/-- The full analysis state threaded through the passes: the scope arena, the
two node annotations (path-keyed), and the logger's accumulated messages. -/
structure AnState where
  store : Store
  scopeAnn : List (Path × Nat)
  dtAnn : List (Path × String)
  logs : List LogMsg
deriving DecidableEq, Repr

/-- `new Scope(...)`: allocate a scope object in the arena. -/
def allocScope (s : AnState) (sd : ScopeData) : AnState × Nat :=
  ({ s with store := s.store ++ [sd] }, s.store.length)

def setScopeAnn (p : Path) (i : Nat) (s : AnState) : AnState :=
  { s with scopeAnn := jsSet s.scopeAnn p i }

/-- `node.dataType = r` where `r : string | null`: `some` stores the string,
`none` (JS `null`) clears the annotation. -/
def setDt (p : Path) (r : Option String) (s : AnState) : AnState :=
  match r with
  | some v => { s with dtAnn := jsSet s.dtAnn p v }
  | none => { s with dtAnn := jsDel s.dtAnn p }

def modStore (f : Store → Store) (s : AnState) : AnState :=
  { s with store := f s.store }

def pushLogs (ms : List LogMsg) (s : AnState) : AnState :=
  { s with logs := s.logs ++ ms }

/-- `Analyzer.logError`: append an error log whose span comes from the given
node's token. -/
def logErr (msg : String) (tk : Token) (s : AnState) : AnState :=
  pushLogs [⟨.Error, "Analyzer", msg, tk.row, tk.column, tk.value.length⟩] s

/-- JS truthiness of `node.dataType`: set and non-empty. -/
def dtTruthy (s : AnState) (p : Path) : Bool :=
  match tlookup s.dtAnn p with
  | some v => !v.isEmpty
  | none => false

/-- The apostrophe character, used in diagnostic texts. -/
def apos : String := (Char.ofNat 39).toString

/-- `JSON.stringify` on an identifier string: quote and escape quote /
backslash characters (control-character escapes are irrelevant here and
elided). -/
def jsonStr (s : String) : String :=
  "\"" ++ String.join (s.toList.map (fun c =>
    if c = Char.ofNat 34 then "\\" ++ (Char.ofNat 34).toString
    else if c = Char.ofNat 92 then "\\\\"
    else String.singleton c)) ++ "\""

/-- JS `str.endsWith(c)` for a one-character suffix, written over the
character list so it computes by kernel reduction. -/
def endsWithChar (s : String) (c : Char) : Bool :=
  s.toList.getLast? = some c

/-- `formatOrdinal` of `analyzer.ts` (note: faithful to the source, so e.g.
111 formats as `111st`, matching the JS `endsWith` tests; the suffixes
tested are single characters). -/
def formatOrdinal (n : Nat) : String :=
  let str := toString n
  if str ≠ "11" ∧ endsWithChar str (Char.ofNat 49) then str ++ "st"
  else if str ≠ "12" ∧ endsWithChar str (Char.ofNat 50) then str ++ "nd"
  else if str ≠ "13" ∧ endsWithChar str (Char.ofNat 51) then str ++ "rd"
  else str ++ "th"

/-- JS `parseInt` for decimal inputs: optional leading spaces and sign, then
leading digits.  An input with no digits gives NaN in JS, modelled as 0 (the
analyzer only ever stores the result in a variable's `offset`, and no claim
concerns non-numeric Map offsets). -/
def jsParseInt (s : String) : Int :=
  let chars := s.toList.dropWhile (· = Char.ofNat 32)
  let signRest : Bool × List Char :=
    match chars with
    | c :: cs =>
      if c = Char.ofNat 45 then (true, cs)
      else if c = Char.ofNat 43 then (false, cs) else (false, chars)
    | [] => (false, [])
  let mag : Nat := (signRest.2.takeWhile Char.isDigit).foldl
    (fun a c => a * 10 + (c.toNat - 48)) 0
  if signRest.1 then -(mag : Int) else (mag : Int)

/-- `MAX_TYPE_DEPTH` of `analyzer.ts`. -/
def MAX_TYPE_DEPTH : Nat := 16

/-- `Analyzer.getSize`: byte size of a variable, recursing through struct
fields, cut off past `MAX_TYPE_DEPTH`.  The source logs through the shared
logger; here the emitted messages are returned alongside the size.
Structural recursion on the fuel `MAX_TYPE_DEPTH + 2 - depth`, which tracks
the source's `depth` parameter exactly: the wrapper below starts with that
fuel and every recursive call keeps the correspondence, so fuel reaches 0
only when `depth > MAX_TYPE_DEPTH + 1`, where the depth cutoff forces
`(0, [])` anyway — the fuel branch and the source's cutoff coincide. -/
def getSizeAux (st : Store) : Nat → Variable → Nat → Nat → Int × List LogMsg
  | 0, _, _, _ => (0, [])
  | fuel + 1, v, p, depth =>
    if depth > MAX_TYPE_DEPTH then (0, [])
    else if v.type = DataType.Int ∨ v.type = DataType.UInt ∨
        v.type = DataType.Float ∨ v.type = DataType.Bool then (4, [])
    else if v.type = DataType.Long ∨ v.type = DataType.ULong ∨
        v.type = DataType.Double then (8, [])
    else if DataType.isPrimitive v.type then (0, [])
    else
      match Scope.getStruct st p v.type with
      | none =>
        (0, match v.node with
            | some nr =>
              [⟨.Error, "Analyzer", "No struct named " ++ v.type ++ " exists in the current scope",
                nr.token.row, nr.token.column, nr.token.value.length⟩]
            | none => [])
      | some strct =>
        (strct.fields.map (fun f => getSizeAux st fuel f f.scope (depth + 1))).foldl
          (fun acc r => (acc.1 + r.1, acc.2 ++ r.2)) (0, [])

def getSize (st : Store) (v : Variable) (p : Nat) (depth : Nat) : Int × List LogMsg :=
  getSizeAux st (MAX_TYPE_DEPTH + 2 - depth) v p depth

/-- The field loop of `makeStructScope`: synthesize one variable per struct
field in the materialized scope, assigning running offsets. -/
def msFields (v : Variable) (scId : Nat) : List Variable → Int → AnState → AnState
  | [], _, s => s
  | field :: rest, offset, s =>
    let nvar : Variable :=
      { node := .none, scope := scId, id := field.id, type := field.type,
        const := v.const, exported := v.exported, mapped := v.mapped, offset := offset }
    let s := modStore (fun st => modifyScope st scId
      (fun sd => { sd with vars := jsSet sd.vars nvar.id nvar })) s
    let r := getSize s.store nvar scId 0
    msFields v scId rest (offset + r.1) (pushLogs r.2 s)

/-- `Analyzer.makeStructScope`: lazily materialize a per-variable scope for a
struct-typed variable `v` under scope `p`. -/
def makeStructScope (v : Variable) (p : Nat) (s : AnState) : AnState :=
  if DataType.isPrimitive v.type then s
  else
    match Scope.getStruct s.store p v.type with
    | none =>
      match v.node with
      | some nr =>
        logErr ("No struct named " ++ v.type ++ " exists in the current scope") nr.token s
      | none => s
    | some strct =>
      let a := allocScope s ⟨v.node, some p, v.id, [], [], [], []⟩
      let s := modStore (fun st => modifyScope st p
        (fun sd => { sd with scopes := jsSet sd.scopes v.id a.2 })) a.1
      msFields v a.2 strct.fields v.offset s

/-- The context of a rule invocation: the node (as its subtree), its path
from the root, and its ancestors (nearest first, each as its subtree) — the
model of the `parent` back-edges. -/
structure RuleCtx where
  node : AstNode
  path : Path
  ancs : List AstNode

/-- The context of child `c` at index `i` of `ctx.node`. -/
def childCtx (ctx : RuleCtx) (c : AstNode) (i : Nat) : RuleCtx :=
  ⟨c, ctx.path ++ [i], ctx.node :: ctx.ancs⟩

/-- `n.children[i].token.value` (total; see module comment on fallbacks). -/
def childTokenValue (n : AstNode) (i : Nat) : String :=
  (n.children.getD i defaultNode).token.value

/-- The defining-node reference of `ctx`. -/
def nref (ctx : RuleCtx) : NodeRef := ⟨ctx.path, ctx.node.token⟩

/-- The `while (node && node.children) node = node.children[0]` loop of the
Const/Export scope rules, started at a non-null node.  In schwa every node's
`children` is an array — all four passes iterate `node.children` unguarded,
so a childless node carries `[]` — and an array is truthy in JS even when
empty.  The loop therefore exits only by stepping to `children[0]` of a
childless node, i.e. to `undefined`: it always returns a falsy value. -/
def jsWhileChildren : AstNode → Option AstNode
  | .mk _ _ _ [] => none
  | .mk _ _ _ (c :: _) => jsWhileChildren c

/-- The same loop started at `n.parent`, which may be null. -/
def jsWhileDescend : Option AstNode → Option AstNode
  | none => none
  | some m => jsWhileChildren m

/-- `nvar.const = true` etc.: mutate the symbol record found by hierarchical
lookup, in whichever scope of the chain holds it. -/
def setVarInChainAux (st : Store) (f : Variable → Variable) : Nat → Nat → String → Store
  | 0, _, _ => st
  | fuel + 1, i, id =>
    match tlookup (sdAt st i).vars id with
    | some v => modifyScope st i (fun sd => { sd with vars := jsSet sd.vars id (f v) })
    | none =>
      match (sdAt st i).parent with
      | some p => setVarInChainAux st f fuel p id
      | none => st

def setVarInChain (st : Store) (i : Nat) (id : String) (f : Variable → Variable) : Store :=
  setVarInChainAux st f (st.length + 1) i id

def setFuncInChainAux (st : Store) (f : Func → Func) : Nat → Nat → String → Store
  | 0, _, _ => st
  | fuel + 1, i, id =>
    match tlookup (sdAt st i).funcs id with
    | some v => modifyScope st i (fun sd => { sd with funcs := jsSet sd.funcs id (f v) })
    | none =>
      match (sdAt st i).parent with
      | some p => setFuncInChainAux st f fuel p id
      | none => st

def setFuncInChain (st : Store) (i : Nat) (id : String) (f : Func → Func) : Store :=
  setFuncInChainAux st f (st.length + 1) i id

def setStructInChainAux (st : Store) (f : Struct → Struct) : Nat → Nat → String → Store
  | 0, _, _ => st
  | fuel + 1, i, id =>
    match tlookup (sdAt st i).structs id with
    | some v => modifyScope st i (fun sd => { sd with structs := jsSet sd.structs id (f v) })
    | none =>
      match (sdAt st i).parent with
      | some p => setStructInChainAux st f fuel p id
      | none => st

def setStructInChain (st : Store) (i : Nat) (id : String) (f : Struct → Struct) : Store :=
  setStructInChainAux st f (st.length + 1) i id

/-- A scope rule `(n, p) => Scope`: receives the node's context and the
parent scope, returns the node's scope, possibly mutating state. -/
abbrev ScopeRule := RuleCtx → Nat → AnState → Nat × AnState

/-- Scope rule for `Program`. -/
def programScopeRule : ScopeRule := fun ctx p s =>
  let a := allocScope s ⟨some (nref ctx), some p, "", [], [], [], []⟩
  (a.2, modStore (fun st => modifyScope st p
    (fun sd => { sd with scopes := jsSet sd.scopes "" a.2 })) a.1)

/-- Scope rule for `Block`. -/
def blockScopeRule : ScopeRule := fun ctx p s =>
  let a := allocScope s ⟨some (nref ctx), some p, "", [], [], [], []⟩
  (a.2, modStore (fun st => modifyScope st p
    (fun sd => { sd with scopes := jsSet sd.scopes "" a.2 })) a.1)

/-- Scope rule for `StructDef`: named scope, field gathering, duplicate
check on the parent's `structs` map. -/
def structDefScopeRule : ScopeRule := fun ctx p s =>
  let name := childTokenValue ctx.node 0
  let a := allocScope s ⟨some (nref ctx), some p, name, [], [], [], []⟩
  let s := a.1
  let scId := a.2
  let fieldNodes := (ctx.node.children.getD 1 defaultNode).children
  let fields := fieldNodes.filterMap (fun fn =>
    if fn.type = AstType.VariableDef then
      some { node := some (nref ctx), scope := scId,
             id := childTokenValue fn 0, type := fn.token.value : Variable }
    else none)
  let strct : Struct := ⟨some (nref ctx), scId, name, fields, false⟩
  if (tlookup (sdAt s.store p).structs strct.id).isSome then
    (scId, logErr ("A struct with the name " ++ jsonStr strct.id ++
      " already exists in the current scope") ctx.node.token s)
  else
    (scId, modStore (fun st => modifyScope st p (fun sd =>
      { sd with structs := jsSet sd.structs strct.id strct,
                scopes := jsSet sd.scopes name scId })) s)

/-- Scope rule for `FunctionDef`: named scope, parameter gathering, duplicate
check on the parent's `funcs` map. -/
def functionDefScopeRule : ScopeRule := fun ctx p s =>
  let name := childTokenValue ctx.node 0
  let a := allocScope s ⟨some (nref ctx), some p, name, [], [], [], []⟩
  let s := a.1
  let scId := a.2
  let paramNodes := (ctx.node.children.getD 1 defaultNode).children
  let params := paramNodes.map (fun pn =>
    { node := some (nref ctx), scope := scId,
      id := childTokenValue pn 0, type := pn.token.value : Variable })
  let func : Func := ⟨some (nref ctx), scId, name, ctx.node.token.value, params, false⟩
  if (tlookup (sdAt s.store p).funcs func.id).isSome then
    (scId, logErr ("A function with the name " ++ jsonStr func.id ++
      " already exists in the current scope") ctx.node.token s)
  else
    (scId, modStore (fun st => modifyScope st p (fun sd =>
      { sd with funcs := jsSet sd.funcs func.id func,
                scopes := jsSet sd.scopes name scId })) s)

/-- Scope rule for `VariableDef`: declare the variable in the parent scope
(duplicate id → diagnostic, record discarded), then set the `global` /
`mapped` / `offset` attributes from `Global` / `Map` ancestors. -/
def variableDefScopeRule : ScopeRule := fun ctx p s =>
  let nvar0 : Variable :=
    { node := some (nref ctx), scope := p,
      id := childTokenValue ctx.node 0, type := ctx.node.token.value }
  if (tlookup (sdAt s.store p).vars nvar0.id).isSome then
    (p, logErr ("A variable with the name " ++ jsonStr nvar0.id ++
      " already exists in the current scope") ctx.node.token s)
  else
    let nvar1 := if (ctx.ancs.find? (fun a => a.type = AstType.Global)).isSome
      then { nvar0 with global := true } else nvar0
    let nvar2 :=
      match ctx.ancs.find? (fun a => a.type = AstType.Map) with
      | some pn =>
        let base := { nvar1 with global := true, mapped := true }
        if pn.children.length ≥ 2 then
          { base with offset := jsParseInt (childTokenValue pn 1) }
        else base
      | none => nvar1
    (p, modStore (fun st => modifyScope st p
      (fun sd => { sd with vars := jsSet sd.vars nvar2.id nvar2 })) s)

/-- Scope rule for `Access`: resolve the first child as a nested scope,
lazily materializing a struct scope on first use. -/
def accessScopeRule : ScopeRule := fun ctx p s =>
  let name := childTokenValue ctx.node 0
  match Scope.getScope s.store p name with
  | some sc => (sc, s)
  | none =>
    match Scope.getVariable s.store p name with
    | some nvar =>
      let s := makeStructScope nvar p s
      match Scope.getScope s.store p name with
      | some sc => (sc, s)
      | none => (p, logErr ("No scope named " ++ jsonStr name ++
          " exists in the current scope") ctx.node.token s)
    | none => (p, logErr ("No scope named " ++ jsonStr name ++
        " exists in the current scope") ctx.node.token s)

/-- Scope rule for `Const` (see `jsWhileChildren`: the descent always ends
falsy, so the flag-setting body is dead code in schwa). -/
def constScopeRule : ScopeRule := fun ctx p s =>
  match jsWhileDescend ctx.ancs.head? with
  | some node =>
    match Scope.getVariable s.store p node.token.value with
    | some _ => (p, modStore (fun st =>
        setVarInChain st p node.token.value (fun v => { v with const := true })) s)
    | none => (p, s)
  | none => (p, s)

/-- Scope rule for `Export` (dead flag-setting body, as for `Const`). -/
def exportScopeRule : ScopeRule := fun ctx p s =>
  match jsWhileDescend ctx.ancs.head? with
  | some node =>
    let s := match Scope.getVariable s.store p node.token.value with
      | some _ => modStore (fun st =>
          setVarInChain st p node.token.value (fun v => { v with exported := true })) s
      | none => s
    let s := match Scope.getFunction s.store p node.token.value with
      | some _ => modStore (fun st =>
          setFuncInChain st p node.token.value (fun f => { f with exported := true })) s
      | none => s
    let s := match Scope.getStruct s.store p node.token.value with
      | some _ => modStore (fun st =>
          setStructInChain st p node.token.value (fun f => { f with exported := true })) s
      | none => s
    (p, s)
  | none => (p, s)

/-- The `scopeRuleMap` as registered by the `SchwaAnalyzer` constructor (one
rule per kind, in registration order). -/
def scopeRuleMap : AstType → List ScopeRule
  | .Program => [programScopeRule]
  | .Block => [blockScopeRule]
  | .StructDef => [structDefScopeRule]
  | .FunctionDef => [functionDefScopeRule]
  | .VariableDef => [variableDefScopeRule]
  | .Access => [accessScopeRule]
  | .Const => [constScopeRule]
  | .Export => [exportScopeRule]
  | _ => []

/-- `rootScope` is the first arena entry. -/
def rootScopeIdx : Nat := 0

/-- `Analyzer.getScope`: memoized scope computation — return the annotation
if present, else compute the parent's scope, run the node's scope rules
(assigning `node.scope` after each), and default to the parent scope.
Structural recursion on the ancestor list (the `node.parent` chain). -/
def getScopeGo : AstNode → Path → List AstNode → AnState → Nat × AnState
  | node, path, ancs, s =>
    match tlookup s.scopeAnn path with
    | some i => (i, s)
    | none =>
      let ps : Nat × AnState :=
        match ancs with
        | a :: rest => getScopeGo a path.dropLast rest s
        | [] => (rootScopeIdx, s)
      let s1 := (scopeRuleMap node.type).foldl
        (fun acc rule =>
          let r := rule ⟨node, path, ancs⟩ ps.1 acc
          setScopeAnn path r.1 r.2) ps.2
      let s2 := if (tlookup s1.scopeAnn path).isNone
        then setScopeAnn path ps.1 s1 else s1
      ((tlookup s2.scopeAnn path).getD ps.1, s2)

def getScope (ctx : RuleCtx) (s : AnState) : Nat × AnState :=
  getScopeGo ctx.node ctx.path ctx.ancs s

mutual

/-- A computable size of a subtree, used as the fuel bound of the
fuel-structured recursions below (the derived `sizeOf` of the nested
inductive has no executable code). -/
def astSize : AstNode → Nat
  | .mk _ _ _ cs => astSizeL cs + 1

def astSizeL : List AstNode → Nat
  | [] => 0
  | c :: rest => astSize c + astSizeL rest

end

/-- `SchwaAnalyzer.getIdentifier`, carried on contexts so the resolved
identifier node keeps its path and ancestors: descend through child 1 of
nested `Access` nodes down to a `FunctionId`/`VariableId`.  A malformed
`Access` (fewer than two children) yields `none`; in JS `n.children[1]` is
undefined there and the recursive call would throw (unreachable on
validated trees). -/
def getIdentifierGo : AstNode → Path → List AstNode → Option RuleCtx
  | node@(.mk t _ _ (_ :: c1 :: _)), path, ancs =>
    if t = AstType.FunctionId ∨ t = AstType.VariableId then some ⟨node, path, ancs⟩
    else if t = AstType.Access then getIdentifierGo c1 (path ++ [1]) (node :: ancs)
    else none
  | node@(.mk t _ _ []), path, ancs =>
    if t = AstType.FunctionId ∨ t = AstType.VariableId then some ⟨node, path, ancs⟩
    else none
  | node@(.mk t _ _ [_]), path, ancs =>
    if t = AstType.FunctionId ∨ t = AstType.VariableId then some ⟨node, path, ancs⟩
    else none

def getIdentifierCtx (ctx : RuleCtx) : Option RuleCtx :=
  getIdentifierGo ctx.node ctx.path ctx.ancs

def intTypeSet : String × String × String := (DataType.Int, DataType.Int, DataType.Int)

def uintTypeSet : String × String × String := (DataType.UInt, DataType.UInt, DataType.UInt)

def longTypeSet : String × String × String := (DataType.Long, DataType.Long, DataType.Long)

def ulongTypeSet : String × String × String := (DataType.ULong, DataType.ULong, DataType.ULong)

def floatTypeSet : String × String × String := (DataType.Float, DataType.Float, DataType.Float)

def doubleTypeSet : String × String × String := (DataType.Double, DataType.Double, DataType.Double)

def fixedTypeSets : List (String × String × String) :=
  [intTypeSet, uintTypeSet, longTypeSet, ulongTypeSet]

def floatingTypeSets : List (String × String × String) := [floatTypeSet, doubleTypeSet]

def signedTypeSets : List (String × String × String) :=
  [intTypeSet, longTypeSet, floatTypeSet, doubleTypeSet]

def numberTypeSets : List (String × String × String) :=
  [intTypeSet, uintTypeSet, longTypeSet, ulongTypeSet, floatTypeSet, doubleTypeSet]

def boolTypeSet : String × String × String := (DataType.Bool, DataType.Bool, DataType.Bool)

def compareSets : List (String × String × String) :=
  [(DataType.Int, DataType.Int, DataType.Bool), (DataType.UInt, DataType.UInt, DataType.Bool),
   (DataType.Long, DataType.Long, DataType.Bool), (DataType.ULong, DataType.ULong, DataType.Bool),
   (DataType.Float, DataType.Float, DataType.Bool), (DataType.Double, DataType.Double, DataType.Bool)]

/-- The `as`-cast pair table (the if-chain of the `As` data-type rule):
`some result` for a permitted `(t0, t1)` pair, `none` otherwise. -/
def asCastResult (t0 t1 : String) : Option String :=
  if t0 = DataType.Int ∧ t1 = DataType.UInt then some DataType.UInt
  else if t0 = DataType.Int ∧ t1 = DataType.Float then some DataType.Float
  else if t0 = DataType.UInt ∧ t1 = DataType.Int then some DataType.Int
  else if t0 = DataType.UInt ∧ t1 = DataType.Float then some DataType.Float
  else if t0 = DataType.Long ∧ t1 = DataType.ULong then some DataType.ULong
  else if t0 = DataType.Long ∧ t1 = DataType.Double then some DataType.Double
  else if t0 = DataType.ULong ∧ t1 = DataType.Long then some DataType.Long
  else if t0 = DataType.ULong ∧ t1 = DataType.Double then some DataType.Double
  else if t0 = DataType.Float ∧ t1 = DataType.Int then some DataType.Int
  else if t0 = DataType.Float ∧ t1 = DataType.UInt then some DataType.UInt
  else if t0 = DataType.Double ∧ t1 = DataType.Long then some DataType.Long
  else if t0 = DataType.Double ∧ t1 = DataType.ULong then some DataType.ULong
  else none

/-- The `to`-cast pair table (the if-chain of the `To` data-type rule). -/
def toCastResult (t0 t1 : String) : Option String :=
  if t0 = DataType.Int ∧ t1 = DataType.Long then some DataType.Long
  else if t0 = DataType.Int ∧ t1 = DataType.ULong then some DataType.ULong
  else if t0 = DataType.Int ∧ t1 = DataType.Float then some DataType.Float
  else if t0 = DataType.Int ∧ t1 = DataType.Double then some DataType.Double
  else if t0 = DataType.UInt ∧ t1 = DataType.Long then some DataType.Long
  else if t0 = DataType.UInt ∧ t1 = DataType.ULong then some DataType.ULong
  else if t0 = DataType.UInt ∧ t1 = DataType.Float then some DataType.Float
  else if t0 = DataType.UInt ∧ t1 = DataType.Double then some DataType.Double
  else if t0 = DataType.Long ∧ t1 = DataType.Int then some DataType.Int
  else if t0 = DataType.Long ∧ t1 = DataType.UInt then some DataType.UInt
  else if t0 = DataType.Long ∧ t1 = DataType.Float then some DataType.Float
  else if t0 = DataType.Long ∧ t1 = DataType.Double then some DataType.Double
  else if t0 = DataType.ULong ∧ t1 = DataType.Int then some DataType.Int
  else if t0 = DataType.ULong ∧ t1 = DataType.UInt then some DataType.UInt
  else if t0 = DataType.ULong ∧ t1 = DataType.Float then some DataType.Float
  else if t0 = DataType.ULong ∧ t1 = DataType.Double then some DataType.Double
  else if t0 = DataType.Float ∧ t1 = DataType.Int then some DataType.Int
  else if t0 = DataType.Float ∧ t1 = DataType.UInt then some DataType.UInt
  else if t0 = DataType.Float ∧ t1 = DataType.Long then some DataType.Long
  else if t0 = DataType.Float ∧ t1 = DataType.ULong then some DataType.ULong
  else if t0 = DataType.Float ∧ t1 = DataType.Double then some DataType.Double
  else if t0 = DataType.Double ∧ t1 = DataType.Int then some DataType.Int
  else if t0 = DataType.Double ∧ t1 = DataType.UInt then some DataType.UInt
  else if t0 = DataType.Double ∧ t1 = DataType.Long then some DataType.Long
  else if t0 = DataType.Double ∧ t1 = DataType.ULong then some DataType.ULong
  else if t0 = DataType.Double ∧ t1 = DataType.Float then some DataType.Float
  else none

/-- Data-type rule for `VariableId` (note the source consults
`this.getScope(n)` twice: once for the truthiness guard — always satisfied,
a `Scope` object is truthy — and once for the lookup). -/
def variableIdRule (ctx : RuleCtx) (s : AnState) : Option String × AnState :=
  let g1 := getScope ctx s
  let g2 := getScope ctx g1.2
  match Scope.getVariable g2.2.store g2.1 ctx.node.token.value with
  | some nvar => (some nvar.type, g2.2)
  | none => (some DataType.Invalid,
      logErr ("No variable named " ++ jsonStr ctx.node.token.value ++
        " exists in the current scope") ctx.node.token g2.2)

/-- Data-type rule for `FunctionId`. -/
def functionIdRule (ctx : RuleCtx) (s : AnState) : Option String × AnState :=
  let g1 := getScope ctx s
  let g2 := getScope ctx g1.2
  match Scope.getFunction g2.2.store g2.1 ctx.node.token.value with
  | some func => (some func.type, g2.2)
  | none => (some DataType.Invalid,
      logErr ("No function named " ++ jsonStr ctx.node.token.value ++
        " exists in the current scope") ctx.node.token g2.2)

/-- Data-type rule for `StructId`. -/
def structIdRule (ctx : RuleCtx) (s : AnState) : Option String × AnState :=
  let g1 := getScope ctx s
  let g2 := getScope ctx g1.2
  match Scope.getStruct g2.2.store g2.1 ctx.node.token.value with
  | some strct => (some strct.id, g2.2)
  | none => (some DataType.Invalid,
      logErr ("No struct named " ++ jsonStr ctx.node.token.value ++
        " exists in the current scope") ctx.node.token g2.2)

/-- Data-type rule for `ReturnVoid`.  JS note: in the error branch the source
passes `n.children[0]` — undefined for the childless `ReturnVoid` — to
`logError`, which would throw reading its token; the model supplies the
fallback token.  No claim depends on this branch. -/
def returnVoidRule (ctx : RuleCtx) (s : AnState) : Option String × AnState :=
  match ctx.ancs.find? (fun a => a.type = AstType.FunctionDef) with
  | some p =>
    if p.token.value ≠ DataType.None then
      (some DataType.Invalid,
        logErr ("Type of return value (" ++ DataType.None ++ ") does not match function " ++
          childTokenValue p 0 ++ apos ++ "s return type (" ++ p.token.value ++ ")")
          (ctx.node.children.getD 0 defaultNode).token s)
    else (some DataType.None, s)
  | none => (some DataType.None, s)

/-- The constant-assignment precheck of the `Assignment` data-type rule:
resolve the target's inner identifier and report whether it names a `const`
variable (`nvar && nvar.const`), threading any state effects of the
`getScope` call. -/
def assignTargetResolve (ctx : RuleCtx) (s : AnState) : Bool × AnState :=
  match ctx.node.children with
  | c0 :: _ =>
    match getIdentifierCtx (childCtx ctx c0 0) with
    | some ic =>
      let g := getScope ic s
      match Scope.getVariable g.2.store g.1 ic.node.token.value with
      | some nvar => (nvar.const, g.2)
      | none => (false, g.2)
    | none => (false, s)
  | [] => (false, s)

/-- The tags of the data-type rules registered by the `SchwaAnalyzer`
constructor.  Rule bodies that recurse into `getDataType` must live inside
the mutual definition below, so the registry stores first-class tags rather
than closures; `applyDtRule` maps each tag to its body. -/
inductive DtRuleTag where
  | accessR | variableIdR | functionIdR | structIdR | typeR
  | variableDefR | functionDefR | structDefR | literalR
  | unOpR (t : TokenType) (sets : List (String × String × String))
  | binOpR (t : TokenType) (sets : List (String × String × String))
  | asR | toR | assignmentR | globalR | functionCallR | returnR | returnVoidR
deriving DecidableEq

/-- The `dataTypeRuleMap` as registered by the constructor, per AST kind in
registration order: for `BinaryOp` the 21 operator-table rules (registered
first) precede the `As` and `To` cast rules. -/
def dtRuleMap : AstType → List DtRuleTag
  | .Access => [.accessR]
  | .VariableId => [.variableIdR]
  | .FunctionId => [.functionIdR]
  | .StructId => [.structIdR]
  | .Type => [.typeR]
  | .VariableDef => [.variableDefR]
  | .FunctionDef => [.functionDefR]
  | .StructDef => [.structDefR]
  | .Literal => [.literalR]
  | .UnaryOp =>
    [.unOpR .Neg signedTypeSets, .unOpR .NOT fixedTypeSets, .unOpR .Not [boolTypeSet]]
  | .BinaryOp =>
    [.binOpR .Add numberTypeSets, .binOpR .Sub numberTypeSets,
     .binOpR .Mul numberTypeSets, .binOpR .Div numberTypeSets,
     .binOpR .Mod fixedTypeSets, .binOpR .AND fixedTypeSets,
     .binOpR .OR fixedTypeSets, .binOpR .XOR fixedTypeSets,
     .binOpR .NOT fixedTypeSets, .binOpR .ShL fixedTypeSets,
     .binOpR .ShR fixedTypeSets, .binOpR .RotL fixedTypeSets,
     .binOpR .RotR fixedTypeSets,
     .binOpR .Eq (compareSets ++ [boolTypeSet]), .binOpR .Ne (compareSets ++ [boolTypeSet]),
     .binOpR .Lt compareSets, .binOpR .Le compareSets,
     .binOpR .Gt compareSets, .binOpR .Ge compareSets,
     .binOpR .And [boolTypeSet], .binOpR .Or [boolTypeSet],
     .asR, .toR]
  | .Assignment => [.assignmentR]
  | .Global => [.globalR]
  | .FunctionCall => [.functionCallR]
  | .Return => [.returnR]
  | .ReturnVoid => [.returnVoidR]
  | _ => []

/-- The per-argument loop of the `FunctionCall` rule, abstracted over the
evaluator `eval` standing for the recursive `this.getDataType`: type each
argument in order against the declared parameter types, reporting every
mismatch. -/
def checkArgsWith (eval : RuleCtx → AnState → String × AnState) (fid : String)
    (argsPath : Path) (argsAncs : List AstNode) :
    List Variable → List AstNode → Nat → Bool → AnState → Bool × AnState
  | prm :: ps, a :: args2, i, valid, s =>
    let r := eval ⟨a, argsPath ++ [i], argsAncs⟩ s
    let res : Bool × AnState :=
      if r.1 ≠ prm.type then
        (false,
          logErr ("The " ++ formatOrdinal (i + 1) ++ " parameter (" ++ jsonStr prm.id ++
            ") of function " ++ jsonStr fid ++ " is type " ++ prm.type ++ ", not " ++ r.1)
            a.token r.2)
      else (valid, r.2)
    checkArgsWith eval fid argsPath argsAncs ps args2 (i + 1) res.1 res.2
  | _, _, _, valid, s => (valid, s)

/-- The data-type rule bodies, one per registered tag (source order of
`SchwaAnalyzer`\'s constructor and of `registerDataTypeUnaryOp` /
`registerDataTypeBinaryOp`), abstracted over the evaluator `eval` standing
for the recursive `this.getDataType`. -/
def applyDtRuleWith (eval : RuleCtx → AnState → String × AnState)
    (ctx : RuleCtx) (tag : DtRuleTag) (s : AnState) : Option String × AnState :=
  match tag with
  | .variableIdR => variableIdRule ctx s
  | .functionIdR => functionIdRule ctx s
  | .structIdR => structIdRule ctx s
  | .typeR => (some DataType.«Type», s)
  | .variableDefR => (some ctx.node.token.value, s)
  | .functionDefR => (some ctx.node.token.value, s)
  | .structDefR => (some (childTokenValue ctx.node 0), s)
  | .literalR => (some (DataType.fromTokenType ctx.node.token.type), s)
  | .returnVoidR => returnVoidRule ctx s
  | .accessR =>
    if ctx.node.children.length ≥ 2 then
      match getIdentifierCtx ctx with
      | some ic =>
        let r := eval ic s
        (some r.1, r.2)
      | none => (some DataType.Invalid, s)
    else (some DataType.Invalid, s)
  | .unOpR t sets =>
    if dtTruthy s ctx.path || ctx.node.token.type != t then (tlookup s.dtAnn ctx.path, s)
    else
      match ctx.node.children with
      | c0 :: _ =>
        let r := eval (childCtx ctx c0 0) s
        match sets.find? (fun row => row.1 == r.1) with
        | some row => (some row.2.1, r.2)
        | none =>
          (some DataType.Invalid,
            logErr ("Invalid argument to operator " ++ TokenType.toName ctx.node.token.type)
              c0.token r.2)
      | [] => (tlookup s.dtAnn ctx.path, s)
  | .binOpR t sets =>
    if dtTruthy s ctx.path || ctx.node.token.type != t then (tlookup s.dtAnn ctx.path, s)
    else
      match ctx.node.children with
      | c0 :: c1 :: _ =>
        let r0 := eval (childCtx ctx c0 0) s
        let r1 := eval (childCtx ctx c1 1) r0.2
        match sets.find? (fun row => row.1 == r0.1 && row.2.1 == r1.1) with
        | some row => (some row.2.2, r1.2)
        | none =>
          let s2 := logErr ("Invalid 1st argument to operator " ++
            TokenType.toName ctx.node.token.type) c0.token r1.2
          let s3 := logErr ("Invalid 2nd argument to operator " ++
            TokenType.toName ctx.node.token.type) c1.token s2
          (some DataType.Invalid, s3)
      | _ => (tlookup s.dtAnn ctx.path, s)
  | .asR =>
    if dtTruthy s ctx.path || ctx.node.token.type != TokenType.As then
      (tlookup s.dtAnn ctx.path, s)
    else
      match ctx.node.children with
      | c0 :: c1 :: _ =>
        let r0 := eval (childCtx ctx c0 0) s
        let t1a := if c1.type = AstType.Type then c1.token.value else DataType.Invalid
        let t1 := if t1a = DataType.Bool then DataType.Invalid else t1a
        match asCastResult r0.1 t1 with
        | some res => (some res, r0.2)
        | none =>
          let s2 := if r0.1 = DataType.Invalid then
              logErr ("Invalid value argument to operator " ++
                TokenType.toName ctx.node.token.type) c0.token r0.2
            else r0.2
          let s3 := if t1 = DataType.Invalid then
              logErr ("Invalid type argument to operator " ++
                TokenType.toName ctx.node.token.type) c1.token s2
            else s2
          (some DataType.Invalid, s3)
      | _ => (tlookup s.dtAnn ctx.path, s)
  | .toR =>
    if dtTruthy s ctx.path || ctx.node.token.type != TokenType.To then
      (tlookup s.dtAnn ctx.path, s)
    else
      match ctx.node.children with
      | c0 :: c1 :: _ =>
        let r0 := eval (childCtx ctx c0 0) s
        let t1a := if c1.type = AstType.Type then c1.token.value else DataType.Invalid
        let t1 := if t1a = DataType.Bool then DataType.Invalid else t1a
        match toCastResult r0.1 t1 with
        | some res => (some res, r0.2)
        | none =>
          let s2 := if r0.1 = DataType.Invalid then
              logErr ("Invalid value argument to operator " ++
                TokenType.toName ctx.node.token.type) c0.token r0.2
            else r0.2
          let s3 := if t1 = DataType.Invalid then
              logErr ("Invalid type argument to operator " ++
                TokenType.toName ctx.node.token.type) c1.token s2
            else s2
          (some DataType.Invalid, s3)
      | _ => (tlookup s.dtAnn ctx.path, s)
  | .assignmentR =>
    let pre := assignTargetResolve ctx s
    if pre.1 then
      (some DataType.Invalid,
        logErr "Constant globals cannot be assigned to" ctx.node.token pre.2)
    else
      match ctx.node.children with
      | c0 :: c1 :: _ =>
        let r0 := eval (childCtx ctx c0 0) pre.2
        let r1 := eval (childCtx ctx c1 1) r0.2
        if r0.1 = DataType.Invalid ∨ r1.1 = DataType.Invalid then
          let s2 := if r0.1 = DataType.Invalid then
              logErr "Invalid left-hand side of assignment" c0.token r1.2 else r1.2
          let s3 := if r1.1 = DataType.Invalid then
              logErr "Invalid right-hand side of assignment" c1.token s2 else s2
          (some DataType.Invalid, s3)
        else if r0.1 ≠ r1.1 then
          (some DataType.Invalid,
            logErr "Both sides of an assignment must be of the same type" ctx.node.token r1.2)
        else (some r0.1, r1.2)
      | _ => (some DataType.Invalid, pre.2)
  | .globalR =>
    match ctx.node.children with
    | c0 :: c1 :: _ =>
      let r0 := eval (childCtx ctx c0 0) s
      let r1 := eval (childCtx ctx c1 1) r0.2
      if r0.1 = DataType.Invalid ∨ r1.1 = DataType.Invalid then
        let s2 := if r0.1 = DataType.Invalid then
            logErr "Invalid left-hand side of assignment" c0.token r1.2 else r1.2
        let s3 := if r1.1 = DataType.Invalid then
            logErr "Invalid right-hand side of assignment" c1.token s2 else s2
        (some DataType.Invalid, s3)
      else if r0.1 ≠ r1.1 then
        (some DataType.Invalid,
          logErr "Both sides of an assignment must be of the same type" ctx.node.token r1.2)
      else (some r0.1, r1.2)
    | _ => (some DataType.Invalid, s)
  | .functionCallR =>
    match ctx.node.children with
    | c0 :: c1 :: _ =>
      match getIdentifierCtx (childCtx ctx c0 0) with
      | none =>
        (some DataType.Invalid, logErr "Invalid function identifier" ctx.node.token s)
      | some ic =>
        let g := getScope ic s
        match Scope.getFunction g.2.store g.1 ic.node.token.value with
        | none =>
          (some DataType.Invalid,
            logErr ("No function named " ++ jsonStr ic.node.token.value ++
              " exists in the current scope") ctx.node.token g.2)
        | some func =>
          if func.params.length ≠ c1.children.length then
            (some DataType.Invalid,
              logErr ("Function " ++ jsonStr func.id ++ " takes " ++
                toString func.params.length ++ " arguments, not " ++
                toString c1.children.length) ctx.node.token g.2)
          else
            let r := checkArgsWith eval func.id (ctx.path ++ [1])
              (c1 :: ctx.node :: ctx.ancs) func.params c1.children 0 true g.2
            (some (if r.1 then func.type else DataType.Invalid), r.2)
    | _ => (some DataType.Invalid, logErr "Invalid function identifier" ctx.node.token s)
  | .returnR =>
    match ctx.node.children with
    | c0 :: _ =>
      let r := eval (childCtx ctx c0 0) s
      match ctx.ancs.find? (fun a => a.type = AstType.FunctionDef) with
      | some p =>
        if r.1 ≠ p.token.value ∨ p.token.value = DataType.None then
          (some DataType.Invalid,
            logErr ("Type of return value (" ++ r.1 ++ ") does not match function " ++
              childTokenValue p 0 ++ apos ++ "s return type (" ++ p.token.value ++ ")")
              c0.token r.2)
        else (some r.1, r.2)
      | none => (some r.1, r.2)
    | [] => (some DataType.Invalid, s)

/-- The rule loop of `getDataType`: `for (let rule of rules) node.dataType =
rule(node)`, abstracted over the evaluator. -/
def applyDtRuleListWith (eval : RuleCtx → AnState → String × AnState)
    (ctx : RuleCtx) : List DtRuleTag → AnState → AnState
  | [], s => s
  | tag :: rest, s =>
    let r := applyDtRuleWith eval ctx tag s
    applyDtRuleListWith eval ctx rest (setDt ctx.path r.1 r.2)

/-- `Analyzer.getDataType`: poison invalid nodes, return a truthy existing
annotation, else run the node kind\'s data-type rules in registration order
(assigning `node.dataType` after each) and default a falsy result to `void`.
Structural recursion on fuel; the wrapper `getDataType` supplies fuel
`sizeOf ctx.node + 1`, which exceeds the nesting depth of evaluator descents
— every nested evaluation (a child, or the inner identifier of an `Access`)
is a strictly smaller subtree — so the fuel-exhaustion branch is unreachable
from the wrapper and `getDataType` satisfies the memoize/rules/default
equation `getDataType_eq` below. -/
def getDataTypeF : Nat → RuleCtx → AnState → String × AnState
  | 0, _, s => (DataType.None, s)
  | fuel + 1, ctx, s =>
    let s := if ctx.node.valid = false then setDt ctx.path (some DataType.Invalid) s else s
    if dtTruthy s ctx.path then ((tlookup s.dtAnn ctx.path).getD "", s)
    else
      let s := applyDtRuleListWith (getDataTypeF fuel) ctx (dtRuleMap ctx.node.type) s
      let s := if dtTruthy s ctx.path = false then setDt ctx.path (some DataType.None) s else s
      ((tlookup s.dtAnn ctx.path).getD DataType.None, s)

def getDataType (ctx : RuleCtx) (s : AnState) : String × AnState :=
  getDataTypeF (astSize ctx.node + 1) ctx s

/-- The children loop of `hoistPass` (recurse only into `StructDef`
children), abstracted over the recursive pass. -/
def hoistKidsWith (pass : RuleCtx → AnState → AnState) (base : RuleCtx) :
    Nat → List AstNode → AnState → AnState
  | _, [], s => s
  | i, c :: rest, s =>
    let s := if c.type = AstType.StructDef then pass (childCtx base c i) s else s
    hoistKidsWith pass base (i + 1) rest s

/-- The children loop of the scope, type and analysis passes (recurse into
every child), abstracted over the recursive pass. -/
def allKidsWith (pass : RuleCtx → AnState → AnState) (base : RuleCtx) :
    Nat → List AstNode → AnState → AnState
  | _, [], s => s
  | i, c :: rest, s => allKidsWith pass base (i + 1) rest (pass (childCtx base c i) s)

/-- `Analyzer.hoistPass`: assign the node\'s scope, then recurse only into
`StructDef` children.  Fuel-structured like `getDataTypeF`; the wrapper fuel
`astSize ctx.node + 1` exceeds the descent depth, so the exhaustion branch
is unreachable from the wrapper. -/
def hoistPassF : Nat → RuleCtx → AnState → AnState
  | 0, _, s => s
  | fuel + 1, ctx, s =>
    let g := getScope ctx s
    let s := setScopeAnn ctx.path g.1 g.2
    hoistKidsWith (hoistPassF fuel) ctx 0 ctx.node.children s

def hoistPass (ctx : RuleCtx) (s : AnState) : AnState := hoistPassF (astSize ctx.node + 1) ctx s

/-- `Analyzer.scopePass`: assign every node\'s scope, recursing into all
children. -/
def scopePassF : Nat → RuleCtx → AnState → AnState
  | 0, _, s => s
  | fuel + 1, ctx, s =>
    let g := getScope ctx s
    let s := setScopeAnn ctx.path g.1 g.2
    allKidsWith (scopePassF fuel) ctx 0 ctx.node.children s

def scopePass (ctx : RuleCtx) (s : AnState) : AnState := scopePassF (astSize ctx.node + 1) ctx s

/-- `Analyzer.typePass`: assign every node\'s dataType, recursing into all
children. -/
def typePassF : Nat → RuleCtx → AnState → AnState
  | 0, _, s => s
  | fuel + 1, ctx, s =>
    let r := getDataType ctx s
    let s := setDt ctx.path (some r.1) r.2
    allKidsWith (typePassF fuel) ctx 0 ctx.node.children s

def typePass (ctx : RuleCtx) (s : AnState) : AnState := typePassF (astSize ctx.node + 1) ctx s

/-- An analysis rule `(n) => void`, as a state transformer. -/
abbrev AnalyzeRule := RuleCtx → AnState → AnState

/-- `analysisRuleMap`: the `SchwaAnalyzer` constructor performs no
`registerAnalysis` call, so every kind\'s analysis-rule list is empty. -/
def analysisRuleMap : AstType → List AnalyzeRule := fun _ => []

/-- `Analyzer.analysisPass`: run the registered analysis rules for the
node\'s kind, then recurse into all children. -/
def analysisPassF : Nat → RuleCtx → AnState → AnState
  | 0, _, s => s
  | fuel + 1, ctx, s =>
    let s := (analysisRuleMap ctx.node.type).foldl (fun acc rule => rule ctx acc) s
    allKidsWith (analysisPassF fuel) ctx 0 ctx.node.children s

def analysisPass (ctx : RuleCtx) (s : AnState) : AnState :=
  analysisPassF (astSize ctx.node + 1) ctx s

/-- The root rule context of a tree. -/
def mkCtx (ast : AstNode) : RuleCtx := ⟨ast, [], []⟩

/-- `Analyzer.analyze`: the four passes in order. -/
def analyze (ast : AstNode) (s : AnState) : AnState :=
  analysisPass (mkCtx ast) (typePass (mkCtx ast) (scopePass (mkCtx ast) (hoistPass (mkCtx ast) s)))

/-- JS `path.split(\x27.\x27)`, written structurally over the character list
so it computes by kernel reduction (it agrees with splitting on a single
dot for every builtin path). -/
def jsSplitDot (s : String) : List String :=
  (s.toList.foldr (fun c acc =>
    if c = Char.ofNat 46 then [] :: acc
    else match acc with
      | cur :: rest => (c :: cur) :: rest
      | [] => [[c]]) [[]]).map String.mk

/-- One step of the `registerBuiltinFunc` scope walk: reuse or create the
named child scope. -/
def ensureChildScope (acc : Store × Nat) (part : String) : Store × Nat :=
  let st := acc.1
  let i := acc.2
  match tlookup (sdAt st i).scopes part with
  | some c => (st, c)
  | none =>
    let idx := st.length
    let st2 := st ++ [⟨.none, some i, part, [], [], [], []⟩]
    let st3 := modifyScope st2 i (fun sd => { sd with scopes := jsSet sd.scopes part idx })
    (st3, idx)

/-- `Analyzer.registerBuiltinFunc`: split the dotted path, create the prefix
scopes on demand, and install the function (parameter list built from the
`paramTypes` indices, as in the source — `double.load`\'s extra parameter
name is ignored exactly as there). -/
def registerBuiltinFunc (st : Store) (path : String) (ty : String)
    (paramTypes : List String) (paramNames : List String) : Store :=
  let parts := jsSplitDot path
  let id := parts.getLast?
  let walk := parts.dropLast
  let r := walk.foldl ensureChildScope (st, rootScopeIdx)
  let params := (List.range paramTypes.length).map (fun i =>
    { node := .none, scope := r.2, id := paramNames.getD i "",
      type := paramTypes.getD i "" : Variable })
  match id with
  | some name =>
    if name.isEmpty then r.1
    else modifyScope r.1 r.2 (fun sd =>
      { sd with funcs := jsSet sd.funcs name ⟨.none, r.2, name, ty, params, false⟩ })
  | none => r.1

/-- The builtin catalog of the `SchwaAnalyzer` constructor, in registration
order: `(path, return type, parameter types, parameter names)`. -/
def schwaBuiltins : List (String × String × List String × List String) :=
  [("nop", DataType.None, [], []),
   ("int.loadSByte", DataType.Int, [DataType.UInt], ["addr"]),
   ("int.loadShort", DataType.Int, [DataType.UInt], ["addr"]),
   ("int.load", DataType.Int, [DataType.UInt], ["addr"]),
   ("int.storeSByte", DataType.None, [DataType.UInt, DataType.Int], ["addr", "val"]),
   ("int.storeShort", DataType.None, [DataType.UInt, DataType.Int], ["addr", "val"]),
   ("int.store", DataType.None, [DataType.UInt, DataType.Int], ["addr", "val"]),
   ("uint.loadByte", DataType.UInt, [DataType.UInt], ["addr"]),
   ("uint.loadUShort", DataType.UInt, [DataType.UInt], ["addr"]),
   ("uint.load", DataType.UInt, [DataType.UInt], ["addr"]),
   ("uint.storeByte", DataType.None, [DataType.UInt, DataType.UInt], ["addr", "val"]),
   ("uint.storeUShort", DataType.None, [DataType.UInt, DataType.UInt], ["addr", "val"]),
   ("uint.store", DataType.None, [DataType.UInt, DataType.UInt], ["addr", "val"]),
   ("long.loadSByte", DataType.Long, [DataType.UInt], ["addr"]),
   ("long.loadShort", DataType.Long, [DataType.UInt], ["addr"]),
   ("long.loadInt", DataType.Long, [DataType.UInt], ["addr"]),
   ("long.load", DataType.Long, [DataType.UInt], ["addr"]),
   ("long.storeSByte", DataType.None, [DataType.UInt, DataType.Long], ["addr", "val"]),
   ("long.storeShort", DataType.None, [DataType.UInt, DataType.Long], ["addr", "val"]),
   ("long.storeInt", DataType.None, [DataType.UInt, DataType.Long], ["addr", "val"]),
   ("long.store", DataType.None, [DataType.UInt, DataType.Long], ["addr", "val"]),
   ("ulong.loadByte", DataType.ULong, [DataType.UInt], ["addr"]),
   ("ulong.loadUShort", DataType.ULong, [DataType.UInt], ["addr"]),
   ("ulong.loadUInt", DataType.ULong, [DataType.UInt], ["addr"]),
   ("ulong.load", DataType.ULong, [DataType.UInt], ["addr"]),
   ("ulong.storeByte", DataType.None, [DataType.UInt, DataType.ULong], ["addr", "val"]),
   ("ulong.storeUShort", DataType.None, [DataType.UInt, DataType.ULong], ["addr", "val"]),
   ("ulong.storeUInt", DataType.None, [DataType.UInt, DataType.ULong], ["addr", "val"]),
   ("ulong.store", DataType.None, [DataType.UInt, DataType.ULong], ["addr", "val"]),
   ("float.load", DataType.Float, [DataType.UInt], ["addr"]),
   ("float.store", DataType.None, [DataType.UInt, DataType.Float], ["addr", "val"]),
   ("double.load", DataType.Double, [DataType.UInt], ["addr", "val"]),
   ("double.store", DataType.None, [DataType.UInt, DataType.Double], ["addr", "val"]),
   ("int.clz", DataType.Int, [DataType.Int], ["n"]),
   ("int.ctz", DataType.Int, [DataType.Int], ["n"]),
   ("int.popcnt", DataType.Int, [DataType.Int], ["n"]),
   ("int.eqz", DataType.Int, [DataType.Int], ["n"]),
   ("uint.clz", DataType.UInt, [DataType.UInt], ["n"]),
   ("uint.ctz", DataType.UInt, [DataType.UInt], ["n"]),
   ("uint.popcnt", DataType.UInt, [DataType.UInt], ["n"]),
   ("uint.eqz", DataType.UInt, [DataType.UInt], ["n"]),
   ("long.clz", DataType.Long, [DataType.Long], ["n"]),
   ("long.ctz", DataType.Long, [DataType.Long], ["n"]),
   ("long.popcnt", DataType.Long, [DataType.Long], ["n"]),
   ("long.eqz", DataType.Long, [DataType.Long], ["n"]),
   ("ulong.clz", DataType.ULong, [DataType.ULong], ["n"]),
   ("ulong.ctz", DataType.ULong, [DataType.ULong], ["n"]),
   ("ulong.popcnt", DataType.ULong, [DataType.ULong], ["n"]),
   ("ulong.eqz", DataType.ULong, [DataType.ULong], ["n"]),
   ("float.abs", DataType.Float, [DataType.Float], ["n"]),
   ("float.ceil", DataType.Float, [DataType.Float], ["n"]),
   ("float.floor", DataType.Float, [DataType.Float], ["n"]),
   ("float.truncate", DataType.Float, [DataType.Float], ["n"]),
   ("float.round", DataType.Float, [DataType.Float], ["n"]),
   ("float.sqrt", DataType.Float, [DataType.Float], ["n"]),
   ("float.copysign", DataType.Float, [DataType.Float, DataType.Float], ["a", "b"]),
   ("float.min", DataType.Float, [DataType.Float, DataType.Float], ["a", "b"]),
   ("float.max", DataType.Float, [DataType.Float, DataType.Float], ["a", "b"]),
   ("double.abs", DataType.Double, [DataType.Double], ["n"]),
   ("double.ceil", DataType.Double, [DataType.Double], ["n"]),
   ("double.floor", DataType.Double, [DataType.Double], ["n"]),
   ("double.truncate", DataType.Double, [DataType.Double], ["n"]),
   ("double.round", DataType.Double, [DataType.Double], ["n"]),
   ("double.sqrt", DataType.Double, [DataType.Double], ["n"]),
   ("double.copysign", DataType.Double, [DataType.Double, DataType.Double], ["a", "b"]),
   ("double.min", DataType.Double, [DataType.Double, DataType.Double], ["a", "b"]),
   ("double.max", DataType.Double, [DataType.Double, DataType.Double], ["a", "b"])]

/-- The store of a freshly constructed `SchwaAnalyzer`: the root scope plus
the builtin catalog. -/
def schwaInitialStore : Store :=
  schwaBuiltins.foldl (fun st e => registerBuiltinFunc st e.1 e.2.1 e.2.2.1 e.2.2.2)
    [⟨.none, .none, "", [], [], [], []⟩]

/-- The analysis state of a freshly constructed `SchwaAnalyzer` with a fresh
logger. -/
def initState : AnState := ⟨schwaInitialStore, [], [], []⟩

/-- `new SchwaAnalyzer(new Logger()).analyze(ast)`. -/
def schwaAnalyze (ast : AstNode) : AnState := analyze ast initState

/-- The list of argument types that the `FunctionCall` rule\'s loop computes,
in order, with the threaded state: the observable against which the loop is
characterized. -/
def argTypes (bp : Path) (ancs : List AstNode) : List AstNode → Nat → AnState → List String × AnState
  | [], _, s => ([], s)
  | a :: rest, i, s =>
    let r := getDataType ⟨a, bp ++ [i], ancs⟩ s
    let r2 := argTypes bp ancs rest (i + 1) r.2
    (r.1 :: r2.1, r2.2)

def Done (root : AstNode) (s : AnState) (q : Path) : Prop :=
  dtTruthy s q = true ∧
    ∀ n, nodeAt root q = some n → n.valid = false →
      tlookup s.dtAnn q = some DataType.Invalid

def StepOK (root : AstNode) (s s2 : AnState) : Prop :=
  (∀ q, (tlookup s.scopeAnn q).isSome = true → (tlookup s2.scopeAnn q).isSome = true) ∧
  (∃ d, s2.logs = s.logs ++ d) ∧
  (∀ q, Done root s q → Done root s2 q)

/-- An evaluator standing for the recursive `this.getDataType` that respects
the run invariants on every coherent context (one whose node really is the
node of `root` at its path). -/
def EvalOK (root : AstNode) (eval : RuleCtx → AnState → String × AnState) : Prop :=
  ∀ ctx s, nodeAt root ctx.path = some ctx.node → StepOK root s (eval ctx s).2

/-- The footprint of a scope rule: dataType and scope annotations untouched,
log only appended. -/
def ScFrame (s s2 : AnState) : Prop :=
  s2.dtAnn = s.dtAnn ∧ s2.scopeAnn = s.scopeAnn ∧ ∃ d, s2.logs = s.logs ++ d

/-- The footprint of `getScope`: dataType annotations untouched, scope
annotations only added, log only appended. -/
def GsFrame (s s2 : AnState) : Prop :=
  s2.dtAnn = s.dtAnn ∧
  (∀ q, (tlookup s.scopeAnn q).isSome = true → (tlookup s2.scopeAnn q).isSome = true) ∧
  ∃ d, s2.logs = s.logs ++ d

/-- The data-type rules whose body starts with the `n.dataType ||` guard
(the operator and cast rules): on a node whose annotation is already truthy
they return the current annotation unchanged. -/
def guardedTag : DtRuleTag → Bool
  | .unOpR _ _ => true
  | .binOpR _ _ => true
  | .asR => true
  | .toR => true
  | _ => false

/-- The post-run invariant: every reachable path has a scope annotation and a
finished dataType annotation. -/
def Annotated (root : AstNode) (s : AnState) : Prop :=
  ∀ q, (nodeAt root q).isSome = true →
    (tlookup s.scopeAnn q).isSome = true ∧ Done root s q

/-- A self-referential struct environment: struct `A` has a field of its own
type `A` plus an `int` field, so sizing recurses through the cycle until the
depth bound. -/
def c2Store : Store :=
  [⟨.none, .none, "", [], [], [],
    [("A", ⟨.none, 0, "A",
      [{ node := .none, scope := 0, id := "x", type := "A" },
       { node := .none, scope := 0, id := "y", type := "int" }], false⟩)]⟩]

def c2Var : Variable := { node := .none, scope := 0, id := "v", type := "A" }

def c9BoolVar : Variable := { node := .none, scope := 0, id := "b", type := DataType.Bool }

/-- Whether some scope of the arena declares a struct named `name`. -/
def declaredStructName (st : Store) (name : String) : Bool :=
  st.any (fun sd => (tlookup sd.structs name).isSome)

def c1Tree : AstNode :=
  .mk .VariableDef ⟨.Other, "Foo", 0, 0⟩ true
    [.mk .VariableId ⟨.Other, "x", 0, 0⟩ true []]

def c3Var : Variable :=
  { node := .none, scope := 0, id := "x", type := DataType.Int, const := true }

def c3Store : Store := [⟨.none, .none, "", [], [("x", c3Var)], [], []⟩]

def c3Node : AstNode :=
  .mk .Assignment ⟨.Other, "=", 0, 0⟩ true
    [.mk .VariableId ⟨.Other, "x", 0, 0⟩ true [], .mk .Literal ⟨.Int, "1", 0, 0⟩ true []]

def c3Ctx : RuleCtx := ⟨c3Node, [], []⟩

def c3State : AnState := ⟨c3Store, [([0], 0)], [], []⟩

def c5RetChild : AstNode := .mk .Literal ⟨.Int, "1", 0, 0⟩ true []

def c5FuncDef : AstNode :=
  .mk .FunctionDef ⟨.Other, "void", 0, 0⟩ true [.mk .FunctionId ⟨.Other, "f", 0, 0⟩ true []]

def c5Ctx : RuleCtx := ⟨.mk .Return ⟨.Other, "return", 0, 0⟩ true [c5RetChild], [0], [c5FuncDef]⟩

def c5State : AnState := ⟨[emptyScopeData], [], [], []⟩

def c7Store : Store :=
  [⟨.none, .none, "", [],
    [("x", { node := .none, scope := 0, id := "x", type := DataType.Int })],
    [("f", ⟨.none, 0, "f", DataType.None, [], false⟩)],
    [("S", ⟨.none, 0, "S", [], false⟩)]⟩]

def c7State : AnState := ⟨c7Store, [], [], []⟩

def c7VarCtx : RuleCtx :=
  ⟨.mk .VariableDef ⟨.Int, "int", 0, 0⟩ true [.mk .VariableId ⟨.Other, "x", 0, 0⟩ true []],
   [], []⟩

def c7FuncCtx : RuleCtx :=
  ⟨.mk .FunctionDef ⟨.Other, "void", 0, 0⟩ true [.mk .FunctionId ⟨.Other, "f", 0, 0⟩ true []],
   [], []⟩

def c7StructCtx : RuleCtx :=
  ⟨.mk .StructDef ⟨.Other, "struct", 0, 0⟩ true [.mk .StructId ⟨.Other, "S", 0, 0⟩ true []],
   [], []⟩

/-- The permitted `as`-cast pairs, as the spec lists them. -/
def asPairs : List (String × String) :=
  [(DataType.Int, DataType.UInt), (DataType.UInt, DataType.Int),
   (DataType.Int, DataType.Float), (DataType.Float, DataType.Int),
   (DataType.UInt, DataType.Float), (DataType.Float, DataType.UInt),
   (DataType.Long, DataType.ULong), (DataType.ULong, DataType.Long),
   (DataType.Long, DataType.Double), (DataType.Double, DataType.Long),
   (DataType.ULong, DataType.Double), (DataType.Double, DataType.ULong)]

/-- The effective RHS type of a cast: the `Type` child\'s token, demoted to
`invalid` when the child is not a `Type` node or names `bool`. -/
def asEffT1 (c1 : AstNode) : String :=
  let t1a := if c1.type = AstType.Type then c1.token.value else DataType.Invalid
  if t1a = DataType.Bool then DataType.Invalid else t1a

def c6Lit : AstNode := .mk .Literal ⟨.Int, "1", 0, 0⟩ true []

def c6TypeNode : AstNode := .mk .Type ⟨.Other, "long", 0, 0⟩ true []

def c6Tree : AstNode := .mk .BinaryOp ⟨.As, "as", 0, 0⟩ true [c6Lit, c6TypeNode]

def c6State : AnState := ⟨[emptyScopeData], [], [], []⟩

/-- The log message of one argument-type mismatch, as `checkArgs` builds it. -/
def argMismatchMsg (fid : String) (prm : Variable) (i : Nat) (got : String)
    (tk : Token) : LogMsg :=
  ⟨.Error, "Analyzer",
    "The " ++ formatOrdinal (i + 1) ++ " parameter (" ++ jsonStr prm.id ++
      ") of function " ++ jsonStr fid ++ " is type " ++ prm.type ++ ", not " ++ got,
    tk.row, tk.column, tk.value.length⟩

def c4Func : Func := ⟨.none, 0, "f", DataType.None, [], false⟩

def c4Store : Store := [⟨.none, .none, "", [], [], [("f", c4Func)], []⟩]

def c4FuncId : AstNode := .mk .FunctionId ⟨.Other, "f", 0, 0⟩ true []

def c4Args : AstNode :=
  .mk .Arguments ⟨.Other, "", 0, 0⟩ true [.mk .Literal ⟨.Int, "1", 0, 0⟩ true []]

def c4Ctx : RuleCtx := ⟨.mk .FunctionCall ⟨.Other, "", 0, 0⟩ true [c4FuncId, c4Args], [], []⟩

def c4State : AnState := ⟨c4Store, [([0], 0)], [], []⟩

def c4Ic : RuleCtx := ⟨c4FuncId, [0], [c4Ctx.node]⟩

/-- A trivial pure evaluator used to witness the argument-loop clauses. -/
def c4EvalConst : RuleCtx → AnState → String × AnState := fun _ s => (DataType.Float, s)

def c4Prm : Variable := { node := .none, scope := 0, id := "p", type := DataType.Int }

def c4ArgNode : AstNode := .mk .Literal ⟨.Float, "1.5", 0, 0⟩ true []

/-! ### Theorems. -/

@[simp] theorem AstNode.type_mk (t tk v cs) : (AstNode.mk t tk v cs).type = t := rfl

@[simp] theorem AstNode.token_mk (t tk v cs) : (AstNode.mk t tk v cs).token = tk := rfl

@[simp] theorem AstNode.valid_mk (t tk v cs) : (AstNode.mk t tk v cs).valid = v := rfl

@[simp] theorem AstNode.children_mk (t tk v cs) : (AstNode.mk t tk v cs).children = cs := rfl

@[simp] theorem store_setScopeAnn (p i s) : (setScopeAnn p i s).store = s.store := rfl

@[simp] theorem dtAnn_setScopeAnn (p i s) : (setScopeAnn p i s).dtAnn = s.dtAnn := rfl

@[simp] theorem logs_setScopeAnn (p i s) : (setScopeAnn p i s).logs = s.logs := rfl

@[simp] theorem scopeAnn_setScopeAnn (p i s) :
    (setScopeAnn p i s).scopeAnn = jsSet s.scopeAnn p i := rfl

@[simp] theorem store_setDt (p r s) : (setDt p r s).store = s.store := by
  cases r <;> rfl

@[simp] theorem scopeAnn_setDt (p r s) : (setDt p r s).scopeAnn = s.scopeAnn := by
  cases r <;> rfl

@[simp] theorem logs_setDt (p r s) : (setDt p r s).logs = s.logs := by
  cases r <;> rfl

@[simp] theorem store_pushLogs (ms s) : (pushLogs ms s).store = s.store := rfl

@[simp] theorem scopeAnn_pushLogs (ms s) : (pushLogs ms s).scopeAnn = s.scopeAnn := rfl

@[simp] theorem dtAnn_pushLogs (ms s) : (pushLogs ms s).dtAnn = s.dtAnn := rfl

@[simp] theorem logs_pushLogs (ms s) : (pushLogs ms s).logs = s.logs ++ ms := rfl

@[simp] theorem store_logErr (m tk s) :
    (logErr m tk s).store = s.store := rfl

@[simp] theorem scopeAnn_logErr (m tk s) :
    (logErr m tk s).scopeAnn = s.scopeAnn := rfl

@[simp] theorem dtAnn_logErr (m tk s) :
    (logErr m tk s).dtAnn = s.dtAnn := rfl

@[simp] theorem scopeAnn_modStore (f s) : (modStore f s).scopeAnn = s.scopeAnn := rfl

@[simp] theorem dtAnn_modStore (f s) : (modStore f s).dtAnn = s.dtAnn := rfl

@[simp] theorem logs_modStore (f s) : (modStore f s).logs = s.logs := rfl

@[simp] theorem scopeAnn_allocScope (s sd) : (allocScope s sd).1.scopeAnn = s.scopeAnn := rfl

@[simp] theorem dtAnn_allocScope (s sd) : (allocScope s sd).1.dtAnn = s.dtAnn := rfl

@[simp] theorem logs_allocScope (s sd) : (allocScope s sd).1.logs = s.logs := rfl

theorem jsWhileChildren_eq_none (n : AstNode) : jsWhileChildren n = none := by
  induction n using jsWhileChildren.induct <;> simp [jsWhileChildren, *]

theorem sizeOf_children_lt (n : AstNode) : sizeOf n.children < sizeOf n := by
  cases n with
  | mk t tk v cs => simp [AstNode.children]

theorem sizeOf_mem_children {c : AstNode} {n : AstNode} (h : c ∈ n.children) :
    sizeOf c < sizeOf n :=
  lt_trans (List.sizeOf_lt_of_mem h) (sizeOf_children_lt n)

@[simp] theorem astSize_mk (t tk v cs) : astSize (.mk t tk v cs) = astSizeL cs + 1 := rfl

@[simp] theorem astSizeL_nil : astSizeL [] = 0 := rfl

@[simp] theorem astSizeL_cons (c rest) : astSizeL (c :: rest) = astSize c + astSizeL rest := rfl

theorem astSize_pos (n : AstNode) : 1 ≤ astSize n := by
  cases n
  simp

theorem astSize_le_of_mem {c : AstNode} {cs : List AstNode} (h : c ∈ cs) :
    astSize c ≤ astSizeL cs := by
  induction cs with
  | nil => cases h
  | cons a rest ih =>
    rcases List.mem_cons.mp h with rfl | h2
    · simp
    · have := ih h2
      simp
      omega

theorem astSize_lt_of_mem_children {c : AstNode} {n : AstNode} (h : c ∈ n.children) :
    astSize c < astSize n := by
  cases n with
  | mk t tk v cs =>
    simp only [AstNode.children_mk] at h
    have := astSize_le_of_mem h
    simp
    omega

theorem astSizeL_children_lt (n : AstNode) : astSizeL n.children < astSize n := by
  cases n with
  | mk t tk v cs => simp

theorem getIdentifierGo_size_aux :
    ∀ (N : Nat) {n : AstNode} {path : Path} {ancs : List AstNode} {r : RuleCtx},
      astSize n ≤ N → getIdentifierGo n path ancs = some r → astSize r.node ≤ astSize n := by
  intro N
  induction N with
  | zero =>
    intro n path ancs r hle h
    exact absurd hle (by have := astSize_pos n; omega)
  | succ N ih =>
    intro n path ancs r hle h
    obtain ⟨t, tk, v, cs⟩ := n
    rcases cs with _ | ⟨c0, _ | ⟨c1, rest⟩⟩ <;>
      rw [getIdentifierGo] at h <;> split at h
    · cases h
      exact le_refl _
    · cases h
    · cases h
      exact le_refl _
    · cases h
    · cases h
      exact le_refl _
    · split at h
      · have hsz : astSize c1 ≤ N := by
          simp at hle
          have := astSize_pos c0
          omega
        refine le_trans (ih hsz h) ?_
        simp
        omega
      · cases h

theorem getIdentifierGo_size {n : AstNode} {path : Path} {ancs : List AstNode} {r : RuleCtx}
    (h : getIdentifierGo n path ancs = some r) : astSize r.node ≤ astSize n :=
  getIdentifierGo_size_aux (astSize n) (le_refl _) h

theorem getIdentifierCtx_size_lt {ctx : RuleCtx} {r : RuleCtx}
    (hA : ctx.node.type = AstType.Access)
    (h : getIdentifierCtx ctx = some r) : astSize r.node < astSize ctx.node := by
  obtain ⟨n, path, ancs⟩ := ctx
  obtain ⟨t, tk, v, cs⟩ := n
  simp only [AstNode.type_mk] at hA
  subst hA
  rw [getIdentifierCtx] at h
  simp only at h
  rcases cs with _ | ⟨c0, _ | ⟨c1, rest⟩⟩ <;>
    rw [getIdentifierGo] at h <;>
    rw [if_neg (by simp)] at h
  · cases h
  · cases h
  · rw [if_pos rfl] at h
    have := getIdentifierGo_size h
    simp only
    refine lt_of_le_of_lt this ?_
    have := astSize_pos c0
    simp
    omega

theorem dtRuleMap_length_le (t : AstType) : (dtRuleMap t).length ≤ 23 := by
  cases t <;> simp [dtRuleMap]

theorem tlookup_jsSet {κ α : Type} [DecidableEq κ] (l : List (κ × α)) (k : κ) (v : α) (q : κ) :
    tlookup (jsSet l k v) q = if k = q then some v else tlookup l q := by
  induction l with
  | nil => simp [jsSet, tlookup]
  | cons hd tl ih =>
    obtain ⟨k0, v0⟩ := hd
    by_cases h0 : k0 = k
    · subst h0
      by_cases h1 : k0 = q <;> simp [jsSet, tlookup, h1]
    · by_cases h1 : k0 = q
      · subst h1
        have hkq : ¬ (k = k0) := fun hh => h0 hh.symm
        simp [jsSet, tlookup, h0, hkq]
      · simp [jsSet, tlookup, h0, h1, ih]

theorem jsSet_self {κ α : Type} [DecidableEq κ] {l : List (κ × α)} {k : κ} {v : α}
    (h : tlookup l k = some v) : jsSet l k v = l := by
  induction l with
  | nil => simp [tlookup] at h
  | cons hd tl ih =>
    obtain ⟨k0, v0⟩ := hd
    by_cases h0 : k0 = k
    · subst h0
      simp [tlookup] at h
      simp [jsSet, h]
    · simp only [tlookup, if_neg h0] at h
      simp [jsSet, h0, ih h]

theorem jsDel_of_lookup_none {κ α : Type} [DecidableEq κ] {l : List (κ × α)} {k : κ}
    (h : tlookup l k = none) : jsDel l k = l := by
  induction l with
  | nil => simp [jsDel]
  | cons hd tl ih =>
    obtain ⟨k0, v0⟩ := hd
    by_cases h0 : k0 = k
    · simp [tlookup, h0] at h
    · simp only [tlookup, if_neg h0] at h
      simp [jsDel, h0, ih h]

/-- Re-assigning the raw current annotation value (the `return n.dataType`
branch of a guarded rule, fed back by the rule loop) leaves the state
unchanged. -/
theorem setDt_lookup_self (p : Path) (s : AnState) : setDt p (tlookup s.dtAnn p) s = s := by
  cases s with
  | mk store scopeAnn dtAnn logs =>
    simp only [setDt]
    match h : tlookup dtAnn p with
    | some v => simp [jsSet_self h]
    | none => simp [jsDel_of_lookup_none h]

theorem tlookup_jsDel_ne {κ α : Type} [DecidableEq κ] (l : List (κ × α)) (k q : κ)
    (h : q ≠ k) : tlookup (jsDel l k) q = tlookup l q := by
  induction l with
  | nil => rfl
  | cons hd tl ih =>
    obtain ⟨k0, v0⟩ := hd
    by_cases h0 : k0 = k
    · subst h0
      have hq : ¬ (k0 = q) := fun hh => h hh.symm
      simp [jsDel, tlookup, hq]
    · simp [jsDel, h0, tlookup, ih]

theorem tlookup_setDt_ne (p : Path) (r : Option String) (s : AnState) (q : Path)
    (h : q ≠ p) : tlookup (setDt p r s).dtAnn q = tlookup s.dtAnn q := by
  cases r with
  | some v =>
    have hp : ¬ (p = q) := fun hh => h hh.symm
    simp [setDt, tlookup_jsSet, hp]
  | none => simp [setDt, tlookup_jsDel_ne _ _ _ h]

theorem tlookup_setDt_self (p : Path) (v : String) (s : AnState) :
    tlookup (setDt p (some v) s).dtAnn p = some v := by
  simp [setDt, tlookup_jsSet]

theorem dtTruthy_setDt_ne (p : Path) (r : Option String) (s : AnState) (q : Path)
    (h : q ≠ p) : dtTruthy (setDt p r s) q = dtTruthy s q := by
  unfold dtTruthy
  rw [tlookup_setDt_ne p r s q h]

theorem dtTruthy_setDt_self (p : Path) (v : String) (s : AnState) :
    dtTruthy (setDt p (some v) s) p = !v.isEmpty := by
  unfold dtTruthy
  rw [tlookup_setDt_self]

theorem setDt_self_of_lookup {p : Path} {v : String} {s : AnState}
    (h : tlookup s.dtAnn p = some v) : setDt p (some v) s = s := by
  have h2 := setDt_lookup_self p s
  rw [h] at h2
  exact h2

theorem setScopeAnn_self {p : Path} {i : Nat} {s : AnState}
    (h : tlookup s.scopeAnn p = some i) : setScopeAnn p i s = s := by
  cases s with
  | mk st sc dt lg =>
    simp only [setScopeAnn]
    rw [jsSet_self h]

theorem dtTruthy_iff (s : AnState) (q : Path) :
    dtTruthy s q = true ↔ ∃ v, tlookup s.dtAnn q = some v ∧ v.isEmpty = false := by
  unfold dtTruthy
  match hv : tlookup s.dtAnn q with
  | some v => simp [hv]
  | none => simp

theorem dtTruthy_of_dtAnn_eq {s s2 : AnState} (h : s2.dtAnn = s.dtAnn) (q : Path) :
    dtTruthy s2 q = dtTruthy s q := by
  unfold dtTruthy
  rw [h]

theorem nodeAt_append (root : AstNode) (p q : Path) :
    nodeAt root (p ++ q) = (nodeAt root p).bind (fun n => nodeAt n q) := by
  induction p generalizing root with
  | nil => simp [nodeAt]
  | cons i r ih =>
    simp only [List.cons_append, nodeAt]
    match h : root.children.get? i with
    | some c =>
      simp only [h]
      exact ih c
    | none => simp only [h, Option.none_bind]

theorem coh_childCtx {root : AstNode} {ctx : RuleCtx} {c : AstNode} {i : Nat}
    (hco : nodeAt root ctx.path = some ctx.node)
    (hc : ctx.node.children.get? i = some c) :
    nodeAt root (childCtx ctx c i).path = some (childCtx ctx c i).node := by
  simp only [childCtx]
  rw [nodeAt_append, hco, Option.some_bind]
  unfold nodeAt
  rw [hc]
  rfl

theorem logsGrow_refl (s : AnState) : ∃ d, s.logs = s.logs ++ d := ⟨[], by simp⟩

theorem doneGoal_of_dtAnn_eq {root : AstNode} {s s2 : AnState} (h : s2.dtAnn = s.dtAnn)
    {q : Path} (hq : Done root s q) : Done root s2 q := by
  obtain ⟨h1, h2⟩ := hq
  constructor
  · rw [dtTruthy_of_dtAnn_eq h]
    exact h1
  · intro n hn hv
    rw [h]
    exact h2 n hn hv

theorem stepOK_refl (root : AstNode) (s : AnState) : StepOK root s s :=
  ⟨fun _ h => h, logsGrow_refl s, fun _ h => h⟩

theorem stepOK_trans {root : AstNode} {s1 s2 s3 : AnState}
    (h1 : StepOK root s1 s2) (h2 : StepOK root s2 s3) : StepOK root s1 s3 := by
  obtain ⟨a1, ⟨d1, l1⟩, c1⟩ := h1
  obtain ⟨a2, ⟨d2, l2⟩, c2⟩ := h2
  exact ⟨fun q h => a2 q (a1 q h), ⟨d1 ++ d2, by rw [l2, l1, List.append_assoc]⟩,
    fun q h => c2 q (c1 q h)⟩

theorem stepOK_of_eq {root : AstNode} {s s2 : AnState} (h : s2 = s) : StepOK root s s2 := by
  rw [h]
  exact stepOK_refl root s

theorem scopeMono_of_scopeAnn_eq {s s2 : AnState} (h : s2.scopeAnn = s.scopeAnn) :
    ∀ q, (tlookup s.scopeAnn q).isSome = true → (tlookup s2.scopeAnn q).isSome = true := by
  intro q hq
  rw [h]
  exact hq

theorem stepOK_of_frame {root : AstNode} {s s2 : AnState} (hd : s2.dtAnn = s.dtAnn)
    (hs : ∀ q, (tlookup s.scopeAnn q).isSome = true → (tlookup s2.scopeAnn q).isSome = true)
    (hl : ∃ d, s2.logs = s.logs ++ d) : StepOK root s s2 :=
  ⟨hs, hl, fun _ hq => doneGoal_of_dtAnn_eq hd hq⟩

theorem stepOK_logErr {root : AstNode} (m : String) (tk : Token) (s : AnState) :
    StepOK root s (logErr m tk s) :=
  stepOK_of_frame (by simp) (scopeMono_of_scopeAnn_eq (by simp)) ⟨_, rfl⟩

theorem stepOK_setDt_not_truthy {root : AstNode} {s : AnState} {p : Path}
    (h : dtTruthy s p = false) (v : Option String) : StepOK root s (setDt p v s) := by
  refine ⟨scopeMono_of_scopeAnn_eq (by simp), ⟨[], by simp⟩, fun q hq => ?_⟩
  have hne : q ≠ p := by
    intro he
    subst he
    rw [hq.1] at h
    simp at h
  constructor
  · rw [dtTruthy_setDt_ne _ _ _ _ hne]
    exact hq.1
  · intro n hn hv
    rw [tlookup_setDt_ne _ _ _ _ hne]
    exact hq.2 n hn hv

theorem stepOK_poison {root : AstNode} {ctx : RuleCtx} {s : AnState}
    (hco : nodeAt root ctx.path = some ctx.node) (hv : ctx.node.valid = false) :
    StepOK root s (setDt ctx.path (some DataType.Invalid) s) := by
  refine ⟨scopeMono_of_scopeAnn_eq (by simp), ⟨[], by simp⟩, fun q hq => ?_⟩
  by_cases hqp : q = ctx.path
  · subst hqp
    have hval : tlookup s.dtAnn ctx.path = some DataType.Invalid := hq.2 ctx.node hco hv
    rw [setDt_self_of_lookup hval]
    exact hq
  · constructor
    · rw [dtTruthy_setDt_ne _ _ _ _ hqp]
      exact hq.1
    · intro n hn hnv
      rw [tlookup_setDt_ne _ _ _ _ hqp]
      exact hq.2 n hn hnv

theorem scFrame_refl (s : AnState) : ScFrame s s := ⟨rfl, rfl, ⟨[], by simp⟩⟩

theorem scFrame_trans {s1 s2 s3 : AnState} (h1 : ScFrame s1 s2) (h2 : ScFrame s2 s3) :
    ScFrame s1 s3 := by
  obtain ⟨a1, b1, d1, l1⟩ := h1
  obtain ⟨a2, b2, d2, l2⟩ := h2
  exact ⟨a2.trans a1, b2.trans b1, ⟨d1 ++ d2, by rw [l2, l1, List.append_assoc]⟩⟩

theorem scFrame_logErr (m : String) (tk : Token) (s : AnState) : ScFrame s (logErr m tk s) :=
  ⟨by simp, by simp, ⟨_, rfl⟩⟩

theorem scFrame_modStore (f : Store → Store) (s : AnState) : ScFrame s (modStore f s) :=
  ⟨rfl, rfl, ⟨[], by simp⟩⟩

theorem scFrame_pushLogs (ms : List LogMsg) (s : AnState) : ScFrame s (pushLogs ms s) :=
  ⟨rfl, rfl, ⟨ms, rfl⟩⟩

theorem scFrame_allocScope (s : AnState) (sd : ScopeData) : ScFrame s (allocScope s sd).1 :=
  ⟨rfl, rfl, ⟨[], by simp⟩⟩

theorem msFields_frame (v : Variable) (scId : Nat) :
    ∀ (fields : List Variable) (off : Int) (s : AnState),
      ScFrame s (msFields v scId fields off s) := by
  intro fields
  induction fields with
  | nil =>
    intro off s
    exact scFrame_refl s
  | cons f rest ih =>
    intro off s
    rw [msFields]
    exact scFrame_trans (scFrame_trans (scFrame_modStore _ _) (scFrame_pushLogs _ _)) (ih _ _)

theorem makeStructScope_frame (v : Variable) (p : Nat) (s : AnState) :
    ScFrame s (makeStructScope v p s) := by
  unfold makeStructScope
  dsimp only
  split
  · exact scFrame_refl s
  · split
    · split
      · exact scFrame_logErr _ _ _
      · exact scFrame_refl s
    · exact scFrame_trans
        (scFrame_trans (scFrame_allocScope _ _) (scFrame_modStore _ _))
        (msFields_frame _ _ _ _ _)

theorem programScopeRule_frame (ctx : RuleCtx) (p : Nat) (s : AnState) :
    ScFrame s (programScopeRule ctx p s).2 := by
  unfold programScopeRule
  exact scFrame_trans (scFrame_allocScope _ _) (scFrame_modStore _ _)

theorem blockScopeRule_frame (ctx : RuleCtx) (p : Nat) (s : AnState) :
    ScFrame s (blockScopeRule ctx p s).2 := by
  unfold blockScopeRule
  exact scFrame_trans (scFrame_allocScope _ _) (scFrame_modStore _ _)

theorem structDefScopeRule_frame (ctx : RuleCtx) (p : Nat) (s : AnState) :
    ScFrame s (structDefScopeRule ctx p s).2 := by
  unfold structDefScopeRule
  dsimp only
  split
  · exact scFrame_trans (scFrame_allocScope _ _) (scFrame_logErr _ _ _)
  · exact scFrame_trans (scFrame_allocScope _ _) (scFrame_modStore _ _)

theorem functionDefScopeRule_frame (ctx : RuleCtx) (p : Nat) (s : AnState) :
    ScFrame s (functionDefScopeRule ctx p s).2 := by
  unfold functionDefScopeRule
  dsimp only
  split
  · exact scFrame_trans (scFrame_allocScope _ _) (scFrame_logErr _ _ _)
  · exact scFrame_trans (scFrame_allocScope _ _) (scFrame_modStore _ _)

theorem variableDefScopeRule_frame (ctx : RuleCtx) (p : Nat) (s : AnState) :
    ScFrame s (variableDefScopeRule ctx p s).2 := by
  unfold variableDefScopeRule
  dsimp only
  split
  · exact scFrame_logErr _ _ _
  · exact scFrame_modStore _ _

theorem accessScopeRule_frame (ctx : RuleCtx) (p : Nat) (s : AnState) :
    ScFrame s (accessScopeRule ctx p s).2 := by
  unfold accessScopeRule
  dsimp only
  split
  · exact scFrame_refl s
  · split
    · split
      · exact makeStructScope_frame _ _ _
      · exact scFrame_trans (makeStructScope_frame _ _ _) (scFrame_logErr _ _ _)
    · exact scFrame_logErr _ _ _

theorem constScopeRule_eq (ctx : RuleCtx) (p : Nat) (s : AnState) :
    constScopeRule ctx p s = (p, s) := by
  cases h : ctx.ancs.head? <;>
    simp [constScopeRule, jsWhileDescend, h, jsWhileChildren_eq_none]

theorem exportScopeRule_eq (ctx : RuleCtx) (p : Nat) (s : AnState) :
    exportScopeRule ctx p s = (p, s) := by
  cases h : ctx.ancs.head? <;>
    simp [exportScopeRule, jsWhileDescend, h, jsWhileChildren_eq_none]

theorem constScopeRule_frame (ctx : RuleCtx) (p : Nat) (s : AnState) :
    ScFrame s (constScopeRule ctx p s).2 := by
  rw [constScopeRule_eq]
  exact scFrame_refl s

theorem exportScopeRule_frame (ctx : RuleCtx) (p : Nat) (s : AnState) :
    ScFrame s (exportScopeRule ctx p s).2 := by
  rw [exportScopeRule_eq]
  exact scFrame_refl s

theorem scopeRuleMap_frame (t : AstType) :
    ∀ r ∈ scopeRuleMap t, ∀ (ctx : RuleCtx) (p : Nat) (s : AnState),
      ScFrame s (r ctx p s).2 := by
  intro r hr ctx p s
  cases t <;> simp only [scopeRuleMap] at hr <;> cases hr <;>
    first
      | exact programScopeRule_frame ctx p s
      | exact blockScopeRule_frame ctx p s
      | exact structDefScopeRule_frame ctx p s
      | exact functionDefScopeRule_frame ctx p s
      | exact variableDefScopeRule_frame ctx p s
      | exact accessScopeRule_frame ctx p s
      | exact constScopeRule_frame ctx p s
      | exact exportScopeRule_frame ctx p s
      | (rename_i h
         cases h)

theorem gsFrame_refl (s : AnState) : GsFrame s s := ⟨rfl, fun _ h => h, ⟨[], by simp⟩⟩

theorem gsFrame_trans {s1 s2 s3 : AnState} (h1 : GsFrame s1 s2) (h2 : GsFrame s2 s3) :
    GsFrame s1 s3 := by
  obtain ⟨a1, b1, d1, l1⟩ := h1
  obtain ⟨a2, b2, d2, l2⟩ := h2
  exact ⟨a2.trans a1, fun q h => b2 q (b1 q h),
    ⟨d1 ++ d2, by rw [l2, l1, List.append_assoc]⟩⟩

theorem gsFrame_of_sc {s s2 : AnState} (h : ScFrame s s2) : GsFrame s s2 :=
  ⟨h.1, scopeMono_of_scopeAnn_eq h.2.1, h.2.2⟩

theorem gsFrame_setScopeAnn (p : Path) (i : Nat) (s : AnState) :
    GsFrame s (setScopeAnn p i s) := by
  refine ⟨by simp, fun q hq => ?_, ⟨[], by simp⟩⟩
  simp only [scopeAnn_setScopeAnn, tlookup_jsSet]
  split
  · rfl
  · exact hq

theorem scopeRules_foldl_gsFrame (node : AstNode) (path : Path) (ancs : List AstNode)
    (p : Nat) :
    ∀ (rules : List ScopeRule),
      (∀ r ∈ rules, ∀ (ctx : RuleCtx) (pp : Nat) (ss : AnState), ScFrame ss (r ctx pp ss).2) →
      ∀ s, GsFrame s (rules.foldl (fun acc rule =>
        let r := rule ⟨node, path, ancs⟩ p acc
        setScopeAnn path r.1 r.2) s) := by
  intro rules
  induction rules with
  | nil =>
    intro _ s
    exact gsFrame_refl s
  | cons r rest ih =>
    intro hr s
    rw [List.foldl_cons]
    refine gsFrame_trans ?_ (ih (fun r2 h2 => hr r2 (List.mem_cons_of_mem _ h2)) _)
    exact gsFrame_trans (gsFrame_of_sc (hr r (List.mem_cons_self _ _) _ _ _))
      (gsFrame_setScopeAnn _ _ _)

theorem getScopeGo_frame :
    ∀ (ancs : List AstNode) (node : AstNode) (path : Path) (s : AnState),
      GsFrame s (getScopeGo node path ancs s).2 := by
  intro ancs
  induction ancs with
  | nil =>
    intro node path s
    rw [getScopeGo]
    split
    · exact gsFrame_refl s
    · dsimp only
      refine gsFrame_trans
        (scopeRules_foldl_gsFrame node path [] rootScopeIdx (scopeRuleMap node.type)
          (scopeRuleMap_frame node.type) s) ?_
      split
      · exact gsFrame_setScopeAnn _ _ _
      · exact gsFrame_refl _
  | cons a rest ih =>
    intro node path s
    rw [getScopeGo]
    split
    · exact gsFrame_refl s
    · dsimp only
      refine gsFrame_trans (ih a path.dropLast s) ?_
      refine gsFrame_trans
        (scopeRules_foldl_gsFrame node path (a :: rest) (getScopeGo a path.dropLast rest s).1
          (scopeRuleMap node.type) (scopeRuleMap_frame node.type)
          (getScopeGo a path.dropLast rest s).2) ?_
      split
      · exact gsFrame_setScopeAnn _ _ _
      · exact gsFrame_refl _

theorem getScope_frame (ctx : RuleCtx) (s : AnState) : GsFrame s (getScope ctx s).2 :=
  getScopeGo_frame ctx.ancs ctx.node ctx.path s

theorem getScope_stepOK (root : AstNode) (ctx : RuleCtx) (s : AnState) :
    StepOK root s (getScope ctx s).2 := by
  obtain ⟨hd, hs, hl⟩ := getScope_frame ctx s
  exact stepOK_of_frame hd hs hl

theorem stepOK_setDt_compose {root : AstNode} {s s2 : AnState} {p : Path}
    (h12 : StepOK root s s2) (ht : dtTruthy s p = false) (v : Option String) :
    StepOK root s (setDt p v s2) := by
  obtain ⟨ha, ⟨d, hl⟩, hc⟩ := h12
  refine ⟨?_, ⟨d, ?_⟩, fun q hq => ?_⟩
  · intro q hq
    rw [scopeAnn_setDt]
    exact ha q hq
  · rw [logs_setDt]
    exact hl
  · have hne : q ≠ p := by
      intro he
      subst he
      rw [hq.1] at ht
      simp at ht
    have hq2 := hc q hq
    constructor
    · rw [dtTruthy_setDt_ne _ _ _ _ hne]
      exact hq2.1
    · intro n hn hnv
      rw [tlookup_setDt_ne _ _ _ _ hne]
      exact hq2.2 n hn hnv

theorem getIdentifierGo_coh (root : AstNode) :
    ∀ (N : Nat) {n : AstNode} {path : Path} {ancs : List AstNode} {r : RuleCtx},
      astSize n ≤ N → nodeAt root path = some n → getIdentifierGo n path ancs = some r →
      nodeAt root r.path = some r.node := by
  intro N
  induction N with
  | zero =>
    intro n path ancs r hle hco h
    exact absurd hle (by have := astSize_pos n; omega)
  | succ N ih =>
    intro n path ancs r hle hco h
    obtain ⟨t, tk, v, cs⟩ := n
    rcases cs with _ | ⟨c0, _ | ⟨c1, rest⟩⟩ <;> rw [getIdentifierGo] at h <;> split at h
    · cases h
      exact hco
    · cases h
    · cases h
      exact hco
    · cases h
    · cases h
      exact hco
    · split at h
      · have hco2 : nodeAt root (path ++ [1]) = some c1 := by
          rw [nodeAt_append, hco]
          rfl
        have hsz : astSize c1 ≤ N := by
          simp at hle
          have := astSize_pos c0
          omega
        exact ih hsz hco2 h
      · cases h

theorem getIdentifierCtx_coh {root : AstNode} {ctx : RuleCtx} {r : RuleCtx}
    (hco : nodeAt root ctx.path = some ctx.node)
    (h : getIdentifierCtx ctx = some r) : nodeAt root r.path = some r.node :=
  getIdentifierGo_coh root (astSize ctx.node) (le_refl _) hco h

theorem checkArgsWith_stepOK (root : AstNode) {eval : RuleCtx → AnState → String × AnState}
    (he : EvalOK root eval) (fid : String) (bp : Path) (ancs : List AstNode) :
    ∀ (ps : List Variable) (args : List AstNode) (i : Nat) (valid : Bool) (s : AnState),
      (∀ j a, args.get? j = some a → nodeAt root (bp ++ [i + j]) = some a) →
      StepOK root s (checkArgsWith eval fid bp ancs ps args i valid s).2 := by
  intro ps
  induction ps with
  | nil =>
    intro args i valid s _
    rw [checkArgsWith]
    · exact stepOK_refl root s
    · intro _ _ _ _ h
      cases h
  | cons prm ps2 ih =>
    intro args i valid s hco
    match args with
    | [] =>
      rw [checkArgsWith]
      · exact stepOK_refl root s
      · intro _ _ _ _ _ h
        cases h
    | a :: args2 =>
      rw [checkArgsWith]
      have hca : nodeAt root (bp ++ [i]) = some a := by
        have h0 := hco 0 a rfl
        rwa [Nat.add_zero] at h0
      have h1 : StepOK root s (eval ⟨a, bp ++ [i], ancs⟩ s).2 := he _ s hca
      have hco2 : ∀ j a2, args2.get? j = some a2 →
          nodeAt root (bp ++ [i + 1 + j]) = some a2 := by
        intro j a2 hj
        have hh := hco (j + 1) a2 (by simpa using hj)
        rwa [show i + (j + 1) = i + 1 + j by omega] at hh
      split
      · exact stepOK_trans (stepOK_trans h1 (stepOK_logErr _ _ _)) (ih _ _ _ _ hco2)
      · exact stepOK_trans h1 (ih _ _ _ _ hco2)

theorem variableIdRule_stepOK (root : AstNode) (ctx : RuleCtx) (s : AnState) :
    StepOK root s (variableIdRule ctx s).2 := by
  unfold variableIdRule
  dsimp only
  split
  · exact stepOK_trans (getScope_stepOK root ctx s) (getScope_stepOK root ctx _)
  · exact stepOK_trans (stepOK_trans (getScope_stepOK root ctx s) (getScope_stepOK root ctx _))
      (stepOK_logErr _ _ _)

theorem functionIdRule_stepOK (root : AstNode) (ctx : RuleCtx) (s : AnState) :
    StepOK root s (functionIdRule ctx s).2 := by
  unfold functionIdRule
  dsimp only
  split
  · exact stepOK_trans (getScope_stepOK root ctx s) (getScope_stepOK root ctx _)
  · exact stepOK_trans (stepOK_trans (getScope_stepOK root ctx s) (getScope_stepOK root ctx _))
      (stepOK_logErr _ _ _)

theorem structIdRule_stepOK (root : AstNode) (ctx : RuleCtx) (s : AnState) :
    StepOK root s (structIdRule ctx s).2 := by
  unfold structIdRule
  dsimp only
  split
  · exact stepOK_trans (getScope_stepOK root ctx s) (getScope_stepOK root ctx _)
  · exact stepOK_trans (stepOK_trans (getScope_stepOK root ctx s) (getScope_stepOK root ctx _))
      (stepOK_logErr _ _ _)

theorem returnVoidRule_stepOK (root : AstNode) (ctx : RuleCtx) (s : AnState) :
    StepOK root s (returnVoidRule ctx s).2 := by
  unfold returnVoidRule
  split
  · try dsimp only
    split
    · exact stepOK_logErr _ _ _
    · exact stepOK_refl root s
  · exact stepOK_refl root s

theorem assignTargetResolve_stepOK (root : AstNode) (ctx : RuleCtx) (s : AnState) :
    StepOK root s (assignTargetResolve ctx s).2 := by
  unfold assignTargetResolve
  split
  · split
    · dsimp only
      split
      · exact getScope_stepOK root _ s
      · exact getScope_stepOK root _ s
    · exact stepOK_refl root s
  · exact stepOK_refl root s

theorem applyDtRuleWith_stepOK (root : AstNode) {eval : RuleCtx → AnState → String × AnState}
    (he : EvalOK root eval) (ctx : RuleCtx) (tag : DtRuleTag) (s : AnState)
    (hco : nodeAt root ctx.path = some ctx.node) :
    StepOK root s (applyDtRuleWith eval ctx tag s).2 := by
  cases tag with
  | accessR =>
    simp only [applyDtRuleWith]
    split
    · split
      · rename_i ic hic
        exact he ic s (getIdentifierCtx_coh hco hic)
      · exact stepOK_refl root s
    · exact stepOK_refl root s
  | variableIdR => exact variableIdRule_stepOK root ctx s
  | functionIdR => exact functionIdRule_stepOK root ctx s
  | structIdR => exact structIdRule_stepOK root ctx s
  | typeR => exact stepOK_refl root s
  | variableDefR => exact stepOK_refl root s
  | functionDefR => exact stepOK_refl root s
  | structDefR => exact stepOK_refl root s
  | literalR => exact stepOK_refl root s
  | returnVoidR => exact returnVoidRule_stepOK root ctx s
  | unOpR t sets =>
    simp only [applyDtRuleWith]
    split
    · exact stepOK_refl root s
    · split
      · rename_i c0 rest hc
        have h0 : StepOK root s (eval (childCtx ctx c0 0) s).2 :=
          he _ s (coh_childCtx hco (by rw [hc]; rfl))
        split
        · exact h0
        · exact stepOK_trans h0 (stepOK_logErr _ _ _)
      · exact stepOK_refl root s
  | binOpR t sets =>
    simp only [applyDtRuleWith]
    split
    · exact stepOK_refl root s
    · split
      · rename_i c0 c1 rest hc
        have h0 : StepOK root s (eval (childCtx ctx c0 0) s).2 :=
          he _ s (coh_childCtx hco (by rw [hc]; rfl))
        have h1 : StepOK root s
            (eval (childCtx ctx c1 1) (eval (childCtx ctx c0 0) s).2).2 :=
          stepOK_trans h0 (he _ _ (coh_childCtx hco (by rw [hc]; rfl)))
        split
        · exact h1
        · exact stepOK_trans (stepOK_trans h1 (stepOK_logErr _ _ _)) (stepOK_logErr _ _ _)
      · exact stepOK_refl root s
  | asR =>
    simp only [applyDtRuleWith]
    split
    · exact stepOK_refl root s
    · split
      · rename_i c0 c1 rest hc
        have h0 : StepOK root s (eval (childCtx ctx c0 0) s).2 :=
          he _ s (coh_childCtx hco (by rw [hc]; rfl))
        split <;> (try split) <;> (try split) <;> (try split) <;> (try split) <;>
          first
            | exact stepOK_trans (stepOK_trans h0 (stepOK_logErr _ _ _)) (stepOK_logErr _ _ _)
            | exact stepOK_trans h0 (stepOK_logErr _ _ _)
            | exact h0
      · exact stepOK_refl root s
  | toR =>
    simp only [applyDtRuleWith]
    split
    · exact stepOK_refl root s
    · split
      · rename_i c0 c1 rest hc
        have h0 : StepOK root s (eval (childCtx ctx c0 0) s).2 :=
          he _ s (coh_childCtx hco (by rw [hc]; rfl))
        split <;> (try split) <;> (try split) <;> (try split) <;> (try split) <;>
          first
            | exact stepOK_trans (stepOK_trans h0 (stepOK_logErr _ _ _)) (stepOK_logErr _ _ _)
            | exact stepOK_trans h0 (stepOK_logErr _ _ _)
            | exact h0
      · exact stepOK_refl root s
  | assignmentR =>
    simp only [applyDtRuleWith]
    have hpre : StepOK root s (assignTargetResolve ctx s).2 :=
      assignTargetResolve_stepOK root ctx s
    split
    · exact stepOK_trans hpre (stepOK_logErr _ _ _)
    · split
      · rename_i c0 c1 rest hc
        have h0 : StepOK root s (eval (childCtx ctx c0 0) (assignTargetResolve ctx s).2).2 :=
          stepOK_trans hpre (he _ _ (coh_childCtx hco (by rw [hc]; rfl)))
        have h1 : StepOK root s (eval (childCtx ctx c1 1)
            (eval (childCtx ctx c0 0) (assignTargetResolve ctx s).2).2).2 :=
          stepOK_trans h0 (he _ _ (coh_childCtx hco (by rw [hc]; rfl)))
        split
        · split <;> split <;>
            first
              | exact stepOK_trans (stepOK_trans h1 (stepOK_logErr _ _ _)) (stepOK_logErr _ _ _)
              | exact stepOK_trans h1 (stepOK_logErr _ _ _)
              | exact h1
        · split
          · exact stepOK_trans h1 (stepOK_logErr _ _ _)
          · exact h1
      · exact hpre
  | globalR =>
    simp only [applyDtRuleWith]
    split
    · rename_i c0 c1 rest hc
      have h0 : StepOK root s (eval (childCtx ctx c0 0) s).2 :=
        he _ s (coh_childCtx hco (by rw [hc]; rfl))
      have h1 : StepOK root s
          (eval (childCtx ctx c1 1) (eval (childCtx ctx c0 0) s).2).2 :=
        stepOK_trans h0 (he _ _ (coh_childCtx hco (by rw [hc]; rfl)))
      split
      · split <;> split <;>
          first
            | exact stepOK_trans (stepOK_trans h1 (stepOK_logErr _ _ _)) (stepOK_logErr _ _ _)
            | exact stepOK_trans h1 (stepOK_logErr _ _ _)
            | exact h1
      · split
        · exact stepOK_trans h1 (stepOK_logErr _ _ _)
        · exact h1
    · exact stepOK_refl root s
  | functionCallR =>
    simp only [applyDtRuleWith]
    split
    · rename_i c0 c1 rest hc
      split
      · exact stepOK_logErr _ _ _
      · rename_i ic hic
        have hg : StepOK root s (getScope ic s).2 := getScope_stepOK root ic s
        split
        · exact stepOK_trans hg (stepOK_logErr _ _ _)
        · rename_i func hfunc
          split
          · exact stepOK_trans hg (stepOK_logErr _ _ _)
          · refine stepOK_trans hg (checkArgsWith_stepOK root he func.id (ctx.path ++ [1])
              (c1 :: ctx.node :: ctx.ancs) func.params c1.children 0 true (getScope ic s).2 ?_)
            intro j a hj
            have hget1 : ctx.node.children.get? 1 = some c1 := by rw [hc]; rfl
            have hc1 : nodeAt root (ctx.path ++ [1]) = some c1 := by
              rw [nodeAt_append, hco, Option.some_bind]
              unfold nodeAt
              rw [hget1]
              rfl
            rw [Nat.zero_add, nodeAt_append, hc1, Option.some_bind]
            unfold nodeAt
            rw [hj]
            rfl
    · exact stepOK_logErr _ _ _
  | returnR =>
    simp only [applyDtRuleWith]
    split
    · rename_i c0 rest hc
      have h0 : StepOK root s (eval (childCtx ctx c0 0) s).2 :=
        he _ s (coh_childCtx hco (by rw [hc]; rfl))
      split
      · split
        · exact stepOK_trans h0 (stepOK_logErr _ _ _)
        · exact h0
      · exact h0
    · exact stepOK_refl root s

theorem guarded_rule_truthy {eval : RuleCtx → AnState → String × AnState} {ctx : RuleCtx}
    {s : AnState} (tag : DtRuleTag) (hg : guardedTag tag = true)
    (ht : dtTruthy s ctx.path = true) :
    applyDtRuleWith eval ctx tag s = (tlookup s.dtAnn ctx.path, s) := by
  cases tag <;>
    first
      | exact absurd hg (by decide)
      | simp [applyDtRuleWith, ht]

theorem ruleStep_stepOK (root : AstNode) {eval : RuleCtx → AnState → String × AnState}
    (he : EvalOK root eval) (ctx : RuleCtx) (tag : DtRuleTag) (s : AnState)
    (hco : nodeAt root ctx.path = some ctx.node)
    (hok : guardedTag tag = true ∨ dtTruthy s ctx.path = false) :
    StepOK root s
      (setDt ctx.path (applyDtRuleWith eval ctx tag s).1 (applyDtRuleWith eval ctx tag s).2) := by
  cases ht : dtTruthy s ctx.path with
  | true =>
    rcases hok with hg | hf
    · rw [guarded_rule_truthy tag hg ht]
      dsimp only
      rw [setDt_lookup_self]
      exact stepOK_refl root s
    · rw [ht] at hf
      cases hf
  | false =>
    exact stepOK_setDt_compose (applyDtRuleWith_stepOK root he ctx tag s hco) ht _

theorem applyDtRuleListWith_stepOK (root : AstNode)
    {eval : RuleCtx → AnState → String × AnState} (he : EvalOK root eval) (ctx : RuleCtx)
    (hco : nodeAt root ctx.path = some ctx.node) :
    ∀ (tags : List DtRuleTag) (s : AnState),
      ((∀ tag ∈ tags, guardedTag tag = true) ∨
        dtTruthy s ctx.path = false ∧ tags.length ≤ 1) →
      StepOK root s (applyDtRuleListWith eval ctx tags s) := by
  intro tags
  induction tags with
  | nil =>
    intro s _
    exact stepOK_refl root s
  | cons tag rest ih =>
    intro s hok
    rw [applyDtRuleListWith]
    rcases hok with hall | ⟨hf, hlen⟩
    · refine stepOK_trans
        (ruleStep_stepOK root he ctx tag s hco (Or.inl (hall tag (List.mem_cons_self _ _)))) ?_
      exact ih _ (Or.inl (fun t2 h2 => hall t2 (List.mem_cons_of_mem _ h2)))
    · have hrest : rest = [] := by
        cases rest with
        | nil => rfl
        | cons a b => simp at hlen
      subst hrest
      rw [applyDtRuleListWith]
      exact ruleStep_stepOK root he ctx tag s hco (Or.inr hf)

theorem dtRuleMap_guard_or_small (t : AstType) :
    (∀ tag ∈ dtRuleMap t, guardedTag tag = true) ∨ (dtRuleMap t).length ≤ 1 := by
  cases t <;>
    first
      | (right
         decide)
      | (left
         decide)

/-- One-step unfolding of `getDataTypeF` at positive fuel (definitional). -/
theorem getDataTypeF_succ (fuel : Nat) (ctx : RuleCtx) (s : AnState) :
    getDataTypeF (fuel + 1) ctx s =
      (let s0 := if ctx.node.valid = false then setDt ctx.path (some DataType.Invalid) s else s
       if dtTruthy s0 ctx.path then ((tlookup s0.dtAnn ctx.path).getD "", s0)
       else
         let s1 := applyDtRuleListWith (getDataTypeF fuel) ctx (dtRuleMap ctx.node.type) s0
         let s2 := if dtTruthy s1 ctx.path = false
           then setDt ctx.path (some DataType.None) s1 else s1
         ((tlookup s2.dtAnn ctx.path).getD DataType.None, s2)) := rfl

theorem dtTruthy_poison (ctx : RuleCtx) (s : AnState) :
    dtTruthy (setDt ctx.path (some DataType.Invalid) s) ctx.path = true := by
  rw [dtTruthy_setDt_self]
  decide

theorem getDataTypeF_evalOK (root : AstNode) :
    ∀ fuel, EvalOK root (getDataTypeF fuel) := by
  intro fuel
  induction fuel with
  | zero =>
    intro ctx s _
    exact stepOK_refl root s
  | succ fuel ih =>
    intro ctx s hco
    rw [getDataTypeF_succ]
    dsimp only
    by_cases hv : ctx.node.valid = false
    · rw [if_pos hv, if_pos (dtTruthy_poison ctx s)]
      exact stepOK_poison hco hv
    · rw [if_neg hv]
      by_cases ht : dtTruthy s ctx.path = true
      · rw [if_pos ht]
        exact stepOK_refl root s
      · have hf : dtTruthy s ctx.path = false := by
          cases hdt : dtTruthy s ctx.path
          · rfl
          · exact absurd hdt ht
        rw [if_neg ht]
        have hloop : StepOK root s
            (applyDtRuleListWith (getDataTypeF fuel) ctx (dtRuleMap ctx.node.type) s) :=
          applyDtRuleListWith_stepOK root ih ctx hco _ s (by
            rcases dtRuleMap_guard_or_small ctx.node.type with h | h
            · exact Or.inl h
            · exact Or.inr ⟨hf, h⟩)
        by_cases ht1 : dtTruthy
            (applyDtRuleListWith (getDataTypeF fuel) ctx (dtRuleMap ctx.node.type) s)
            ctx.path = false
        · rw [if_pos ht1]
          exact stepOK_setDt_compose hloop hf _
        · rw [if_neg ht1]
          exact hloop

theorem getDataTypeF_done (root : AstNode) (fuel : Nat) (ctx : RuleCtx) (s : AnState)
    (hco : nodeAt root ctx.path = some ctx.node) :
    Done root (getDataTypeF (fuel + 1) ctx s).2 ctx.path := by
  rw [getDataTypeF_succ]
  dsimp only
  by_cases hv : ctx.node.valid = false
  · rw [if_pos hv, if_pos (dtTruthy_poison ctx s)]
    refine ⟨dtTruthy_poison ctx s, fun n hn hnv => ?_⟩
    exact tlookup_setDt_self _ _ _
  · have hvt : ctx.node.valid = true := by
      cases hval : ctx.node.valid
      · exact absurd hval hv
      · rfl
    have hcontra : ∀ (s3 : AnState) (n : AstNode), nodeAt root ctx.path = some n →
        n.valid = false → tlookup s3.dtAnn ctx.path = some DataType.Invalid := by
      intro s3 n hn hnv
      rw [hco] at hn
      injection hn with hn2
      rw [← hn2] at hnv
      rw [hvt] at hnv
      cases hnv
    rw [if_neg hv]
    by_cases ht : dtTruthy s ctx.path = true
    · rw [if_pos ht]
      exact ⟨ht, hcontra s⟩
    · rw [if_neg ht]
      by_cases ht1 : dtTruthy
          (applyDtRuleListWith (getDataTypeF fuel) ctx (dtRuleMap ctx.node.type) s)
          ctx.path = false
      · rw [if_pos ht1]
        refine ⟨?_, hcontra _⟩
        rw [dtTruthy_setDt_self]
        decide
      · rw [if_neg ht1]
        refine ⟨?_, hcontra _⟩
        cases hdt : dtTruthy
            (applyDtRuleListWith (getDataTypeF fuel) ctx (dtRuleMap ctx.node.type) s)
            ctx.path
        · exact absurd hdt ht1
        · rfl

theorem getD_of_truthy {s : AnState} {q : Path} (ht : dtTruthy s q = true) (d : String) :
    tlookup s.dtAnn q = some ((tlookup s.dtAnn q).getD d) := by
  obtain ⟨v, hl, _⟩ := (dtTruthy_iff s q).mp ht
  rw [hl]
  rfl

/-- `getDataType` returns exactly the value stored at the node\'s path. -/
theorem getDataTypeF_lookup_fst (fuel : Nat) (ctx : RuleCtx) (s : AnState) :
    tlookup (getDataTypeF (fuel + 1) ctx s).2.dtAnn ctx.path =
      some (getDataTypeF (fuel + 1) ctx s).1 := by
  rw [getDataTypeF_succ]
  dsimp only
  by_cases hv : ctx.node.valid = false
  · rw [if_pos hv, if_pos (dtTruthy_poison ctx s)]
    exact getD_of_truthy (dtTruthy_poison ctx s) _
  · rw [if_neg hv]
    by_cases ht : dtTruthy s ctx.path = true
    · rw [if_pos ht]
      exact getD_of_truthy ht _
    · rw [if_neg ht]
      by_cases ht1 : dtTruthy
          (applyDtRuleListWith (getDataTypeF fuel) ctx (dtRuleMap ctx.node.type) s)
          ctx.path = false
      · rw [if_pos ht1]
        have htr : dtTruthy (setDt ctx.path (some DataType.None)
            (applyDtRuleListWith (getDataTypeF fuel) ctx (dtRuleMap ctx.node.type) s))
            ctx.path = true := by
          rw [dtTruthy_setDt_self]
          decide
        exact getD_of_truthy htr _
      · rw [if_neg ht1]
        have htr : dtTruthy
            (applyDtRuleListWith (getDataTypeF fuel) ctx (dtRuleMap ctx.node.type) s)
            ctx.path = true := by
          cases hdt : dtTruthy
              (applyDtRuleListWith (getDataTypeF fuel) ctx (dtRuleMap ctx.node.type) s)
              ctx.path
          · exact absurd hdt ht1
          · rfl
        exact getD_of_truthy htr _

theorem hoistKidsWith_frame {pass : RuleCtx → AnState → AnState}
    (hp : ∀ c s, GsFrame s (pass c s)) (base : RuleCtx) :
    ∀ (cs : List AstNode) (i : Nat) (s : AnState),
      GsFrame s (hoistKidsWith pass base i cs s) := by
  intro cs
  induction cs with
  | nil =>
    intro i s
    exact gsFrame_refl s
  | cons c rest ih =>
    intro i s
    rw [hoistKidsWith]
    try dsimp only
    refine gsFrame_trans ?_ (ih _ _)
    split
    · exact hp _ _
    · exact gsFrame_refl s

theorem allKidsWith_frame {pass : RuleCtx → AnState → AnState}
    (hp : ∀ c s, GsFrame s (pass c s)) (base : RuleCtx) :
    ∀ (cs : List AstNode) (i : Nat) (s : AnState),
      GsFrame s (allKidsWith pass base i cs s) := by
  intro cs
  induction cs with
  | nil =>
    intro i s
    exact gsFrame_refl s
  | cons c rest ih =>
    intro i s
    rw [allKidsWith]
    exact gsFrame_trans (hp _ _) (ih _ _)

theorem hoistPassF_frame :
    ∀ (fuel : Nat) (ctx : RuleCtx) (s : AnState), GsFrame s (hoistPassF fuel ctx s) := by
  intro fuel
  induction fuel with
  | zero =>
    intro ctx s
    exact gsFrame_refl s
  | succ fuel ih =>
    intro ctx s
    rw [hoistPassF]
    try dsimp only
    refine gsFrame_trans
      (gsFrame_trans (getScope_frame ctx s)
        (gsFrame_setScopeAnn ctx.path (getScope ctx s).1 (getScope ctx s).2)) ?_
    exact hoistKidsWith_frame (fun c s2 => ih c s2) ctx _ _ _

theorem scopePassF_frame :
    ∀ (fuel : Nat) (ctx : RuleCtx) (s : AnState), GsFrame s (scopePassF fuel ctx s) := by
  intro fuel
  induction fuel with
  | zero =>
    intro ctx s
    exact gsFrame_refl s
  | succ fuel ih =>
    intro ctx s
    rw [scopePassF]
    try dsimp only
    refine gsFrame_trans
      (gsFrame_trans (getScope_frame ctx s)
        (gsFrame_setScopeAnn ctx.path (getScope ctx s).1 (getScope ctx s).2)) ?_
    exact allKidsWith_frame (fun c s2 => ih c s2) ctx _ _ _

/-- `scopePass` walks every node of the subtree and assigns its scope, so
afterwards every subtree path carries a scope annotation (and the pass has
the `getScope` footprint). -/
theorem scopePassF_master :
    ∀ (fuel : Nat) (ctx : RuleCtx) (s : AnState), astSize ctx.node ≤ fuel →
      ∀ rest, (nodeAt ctx.node rest).isSome = true →
        (tlookup (scopePassF fuel ctx s).scopeAnn (ctx.path ++ rest)).isSome = true := by
  intro fuel
  induction fuel with
  | zero =>
    intro ctx s hsz
    exact absurd hsz (by have := astSize_pos ctx.node; omega)
  | succ fuel ih =>
    intro ctx s hsz rest hrest
    rw [scopePassF]
    try dsimp only
    cases rest with
    | nil =>
      rw [List.append_nil]
      refine (allKidsWith_frame (fun c s2 => scopePassF_frame fuel c s2) ctx _ _ _).2.1
        ctx.path ?_
      rw [scopeAnn_setScopeAnn, tlookup_jsSet]
      simp
    | cons j rest2 =>
      unfold nodeAt at hrest
      match hc : ctx.node.children.get? j with
      | none =>
        rw [hc] at hrest
        simp at hrest
      | some c =>
        rw [hc] at hrest
        have hmem : c ∈ ctx.node.children := List.get?_mem hc
        have hsz2 : astSize c ≤ fuel := by
          have := astSize_lt_of_mem_children hmem
          omega
        -- the annotation is established when the kids loop reaches index j
        have hkid : ∀ (cs : List AstNode) (i : Nat) (s2 : AnState),
            (∀ k c2, cs.get? k = some c2 → ctx.node.children.get? (i + k) = some c2) →
            ∀ k c2, cs.get? k = some c2 → astSize c2 ≤ fuel →
              ∀ r2, (nodeAt c2 r2).isSome = true →
              (tlookup (allKidsWith (scopePassF fuel) ctx i cs s2).scopeAnn
                (ctx.path ++ [i + k] ++ r2)).isSome = true := by
          intro cs
          induction cs with
          | nil =>
            intro i s2 _ k c2 hk
            rw [List.get?_nil] at hk
            cases hk
          | cons d ds ihd =>
            intro i s2 hcs k c2 hk hszc r2 hr2
            rw [allKidsWith]
            cases k with
            | zero =>
              have hd : d = c2 := by
                rw [show (d :: ds).get? 0 = some d from rfl] at hk
                injection hk
              subst hd
              have hest := ih (childCtx ctx d i) s2 hszc r2 hr2
              have hmono := (allKidsWith_frame (fun c3 s3 => scopePassF_frame fuel c3 s3)
                ctx ds (i + 1) (scopePassF fuel (childCtx ctx d i) s2)).2.1
              have hgoal := hmono _ hest
              rwa [show (childCtx ctx d i).path ++ r2 = ctx.path ++ [i + 0] ++ r2 by
                simp [childCtx]] at hgoal
            | succ k2 =>
              have hk2 : ds.get? k2 = some c2 := by simpa using hk
              have := ihd (i + 1) (scopePassF fuel (childCtx ctx d i) s2)
                (fun k3 c3 h3 => by
                  have := hcs (k3 + 1) c3 (by simpa using h3)
                  rwa [show i + (k3 + 1) = i + 1 + k3 by omega] at this)
                k2 c2 hk2 hszc r2 hr2
              rwa [show i + 1 + k2 = i + (k2 + 1) by omega] at this
        have := hkid ctx.node.children 0
          (setScopeAnn ctx.path (getScope ctx s).1 (getScope ctx s).2)
          (fun k c2 h2 => by rwa [Nat.zero_add]) j c hc hsz2 rest2 hrest
        rwa [Nat.zero_add, show ctx.path ++ [j] ++ rest2 = ctx.path ++ (j :: rest2) by simp]
          at this

/-- The children loop of `typePass`: every child subtree ends `Done`, and the
loop respects the run invariants. -/
theorem typeKids_master (root : AstNode) (fuel : Nat)
    (ihp : ∀ (ctx : RuleCtx) (s : AnState), astSize ctx.node ≤ fuel →
      nodeAt root ctx.path = some ctx.node →
      StepOK root s (typePassF fuel ctx s) ∧
      (∀ rest, (nodeAt ctx.node rest).isSome = true →
        Done root (typePassF fuel ctx s) (ctx.path ++ rest)))
    (base : RuleCtx) (hbase : nodeAt root base.path = some base.node) :
    ∀ (cs : List AstNode) (i : Nat) (s : AnState),
      (∀ j c, cs.get? j = some c →
        base.node.children.get? (i + j) = some c ∧ astSize c ≤ fuel) →
      StepOK root s (allKidsWith (typePassF fuel) base i cs s) ∧
      (∀ j c rest, cs.get? j = some c → (nodeAt c rest).isSome = true →
        Done root (allKidsWith (typePassF fuel) base i cs s) (base.path ++ [i + j] ++ rest)) := by
  intro cs
  induction cs with
  | nil =>
    intro i s _
    refine ⟨stepOK_refl root s, fun j c rest hj _ => ?_⟩
    rw [List.get?_nil] at hj
    cases hj
  | cons c crest ihc =>
    intro i s hcs
    rw [allKidsWith]
    obtain ⟨hg0, hsz0⟩ := hcs 0 c rfl
    rw [Nat.add_zero] at hg0
    have hcoh0 : nodeAt root (childCtx base c i).path = some (childCtx base c i).node :=
      coh_childCtx hbase hg0
    have h1 := ihp (childCtx base c i) s hsz0 hcoh0
    have hcs2 : ∀ j c2, crest.get? j = some c2 →
        base.node.children.get? (i + 1 + j) = some c2 ∧ astSize c2 ≤ fuel := by
      intro j c2 hj
      have hh := hcs (j + 1) c2 (by simpa using hj)
      rwa [show i + (j + 1) = i + 1 + j by omega] at hh
    have h2 := ihc (i + 1) (typePassF fuel (childCtx base c i) s) hcs2
    refine ⟨stepOK_trans h1.1 h2.1, fun j c2 rest hj hrest => ?_⟩
    cases j with
    | zero =>
      have hd : c = c2 := by
        rw [show (c :: crest).get? 0 = some c from rfl] at hj
        injection hj
      subst hd
      have hdone := h1.2 rest hrest
      have hpres := h2.1.2.2 _ hdone
      rwa [show (childCtx base c i).path ++ rest = base.path ++ [i + 0] ++ rest by
        simp [childCtx]] at hpres
    | succ j2 =>
      have hj2 : crest.get? j2 = some c2 := by simpa using hj
      have hh := h2.2 j2 c2 rest hj2 hrest
      rwa [show i + 1 + j2 = i + (j2 + 1) by omega] at hh

/-- `typePass` respects the run invariants and leaves every subtree path
`Done`: the node\'s own `getDataType` call ends with a truthy annotation
(poisoned to `invalid` on invalid nodes), the `node.dataType = ...`
assignment of the pass re-writes that same value, and the children\'s
passes do the same for their subtrees without disturbing finished paths. -/
theorem typePassF_master (root : AstNode) :
    ∀ (fuel : Nat) (ctx : RuleCtx) (s : AnState),
      astSize ctx.node ≤ fuel → nodeAt root ctx.path = some ctx.node →
      StepOK root s (typePassF fuel ctx s) ∧
      (∀ rest, (nodeAt ctx.node rest).isSome = true →
        Done root (typePassF fuel ctx s) (ctx.path ++ rest)) := by
  intro fuel
  induction fuel with
  | zero =>
    intro ctx s hsz
    exact absurd hsz (by have := astSize_pos ctx.node; omega)
  | succ fuel ih =>
    intro ctx s hsz hco
    rw [typePassF]
    try dsimp only
    have hset : setDt ctx.path (some (getDataType ctx s).1) (getDataType ctx s).2 =
        (getDataType ctx s).2 :=
      setDt_self_of_lookup (getDataTypeF_lookup_fst (astSize ctx.node) ctx s)
    rw [hset]
    have hdt : StepOK root s (getDataType ctx s).2 :=
      getDataTypeF_evalOK root (astSize ctx.node + 1) ctx s hco
    have hdone : Done root (getDataType ctx s).2 ctx.path :=
      getDataTypeF_done root (astSize ctx.node) ctx s hco
    have hcs : ∀ j c, ctx.node.children.get? j = some c →
        ctx.node.children.get? (0 + j) = some c ∧ astSize c ≤ fuel := by
      intro j c hj
      refine ⟨by rwa [Nat.zero_add], ?_⟩
      have := astSize_lt_of_mem_children (List.get?_mem hj)
      omega
    have hkids := typeKids_master root fuel (fun c2 s2 h2 h3 => ih c2 s2 h2 h3) ctx hco
      ctx.node.children 0 (getDataType ctx s).2 hcs
    refine ⟨stepOK_trans hdt hkids.1, fun rest hrest => ?_⟩
    cases rest with
    | nil =>
      rw [List.append_nil]
      exact hkids.1.2.2 ctx.path hdone
    | cons j rest2 =>
      unfold nodeAt at hrest
      match hcj : ctx.node.children.get? j with
      | none =>
        rw [hcj] at hrest
        simp at hrest
      | some c =>
        rw [hcj] at hrest
        have hh := hkids.2 j c rest2 hcj hrest
        rwa [show ctx.path ++ [0 + j] ++ rest2 = ctx.path ++ (j :: rest2) by simp] at hh

theorem getScopeGo_memo {node : AstNode} {path : Path} {ancs : List AstNode} {s : AnState}
    {i : Nat} (h : tlookup s.scopeAnn path = some i) :
    getScopeGo node path ancs s = (i, s) := by
  cases ancs <;> rw [getScopeGo, h]

theorem getScope_memo {ctx : RuleCtx} {s : AnState} {i : Nat}
    (h : tlookup s.scopeAnn ctx.path = some i) : getScope ctx s = (i, s) :=
  getScopeGo_memo h

theorem allKidsWith_id_of {pass : RuleCtx → AnState → AnState} {s : AnState} (base : RuleCtx) :
    ∀ (cs : List AstNode) (i : Nat),
      (∀ j c, cs.get? j = some c → pass (childCtx base c (i + j)) s = s) →
      allKidsWith pass base i cs s = s := by
  intro cs
  induction cs with
  | nil =>
    intro i _
    rfl
  | cons c crest ih =>
    intro i hp
    rw [allKidsWith]
    have h0 := hp 0 c rfl
    rw [Nat.add_zero] at h0
    rw [h0]
    exact ih (i + 1) (fun j c2 hj => by
      have hh := hp (j + 1) c2 (by simpa using hj)
      rwa [show i + (j + 1) = i + 1 + j by omega] at hh)

theorem hoistKidsWith_id_of {pass : RuleCtx → AnState → AnState} {s : AnState} (base : RuleCtx) :
    ∀ (cs : List AstNode) (i : Nat),
      (∀ j c, cs.get? j = some c → pass (childCtx base c (i + j)) s = s) →
      hoistKidsWith pass base i cs s = s := by
  intro cs
  induction cs with
  | nil =>
    intro i _
    rfl
  | cons c crest ih =>
    intro i hp
    rw [hoistKidsWith]
    have h0 := hp 0 c rfl
    rw [Nat.add_zero] at h0
    have hstep : (if c.type = AstType.StructDef then pass (childCtx base c i) s else s) = s := by
      split
      · exact h0
      · rfl
    rw [hstep]
    exact ih (i + 1) (fun j c2 hj => by
      have hh := hp (j + 1) c2 (by simpa using hj)
      rwa [show i + (j + 1) = i + 1 + j by omega] at hh)

theorem annotated_scopeAnn {root : AstNode} {s : AnState} (hA : Annotated root s)
    {ctx : RuleCtx} (hco : nodeAt root ctx.path = some ctx.node) :
    ∃ i, tlookup s.scopeAnn ctx.path = some i := by
  have hh := (hA ctx.path (by rw [hco]; rfl)).1
  exact Option.isSome_iff_exists.mp hh

theorem hoistPassF_id (root : AstNode) (s : AnState) (hA : Annotated root s) :
    ∀ (fuel : Nat) (ctx : RuleCtx), nodeAt root ctx.path = some ctx.node →
      hoistPassF fuel ctx s = s := by
  intro fuel
  induction fuel with
  | zero =>
    intro ctx _
    rfl
  | succ fuel ih =>
    intro ctx hco
    rw [hoistPassF]
    try dsimp only
    obtain ⟨i, hi⟩ := annotated_scopeAnn hA hco
    rw [getScope_memo hi]
    try dsimp only
    rw [setScopeAnn_self hi]
    exact hoistKidsWith_id_of ctx ctx.node.children 0 (fun j c hj => by
      have hg : ctx.node.children.get? (0 + j) = some c := by rwa [Nat.zero_add]
      exact ih (childCtx ctx c (0 + j)) (coh_childCtx hco hg))

theorem scopePassF_id (root : AstNode) (s : AnState) (hA : Annotated root s) :
    ∀ (fuel : Nat) (ctx : RuleCtx), nodeAt root ctx.path = some ctx.node →
      scopePassF fuel ctx s = s := by
  intro fuel
  induction fuel with
  | zero =>
    intro ctx _
    rfl
  | succ fuel ih =>
    intro ctx hco
    rw [scopePassF]
    try dsimp only
    obtain ⟨i, hi⟩ := annotated_scopeAnn hA hco
    rw [getScope_memo hi]
    try dsimp only
    rw [setScopeAnn_self hi]
    exact allKidsWith_id_of ctx ctx.node.children 0 (fun j c hj => by
      have hg : ctx.node.children.get? (0 + j) = some c := by rwa [Nat.zero_add]
      exact ih (childCtx ctx c (0 + j)) (coh_childCtx hco hg))

/-- On an annotated state, `getDataType` is a pure read: the memoization
guard returns the stored (truthy) annotation, and on invalid nodes the
poison write re-writes the stored `invalid`. -/
theorem getDataTypeF_id {root : AstNode} {s : AnState} (hA : Annotated root s)
    (fuel : Nat) (ctx : RuleCtx) (hco : nodeAt root ctx.path = some ctx.node) :
    getDataTypeF (fuel + 1) ctx s = ((tlookup s.dtAnn ctx.path).getD "", s) := by
  obtain ⟨hscope, hdone⟩ := hA ctx.path (by rw [hco]; rfl)
  rw [getDataTypeF_succ]
  dsimp only
  by_cases hv : ctx.node.valid = false
  · have hval : tlookup s.dtAnn ctx.path = some DataType.Invalid := hdone.2 ctx.node hco hv
    rw [if_pos hv, setDt_self_of_lookup hval, if_pos hdone.1]
  · rw [if_neg hv, if_pos hdone.1]

theorem typePassF_id (root : AstNode) (s : AnState) (hA : Annotated root s) :
    ∀ (fuel : Nat) (ctx : RuleCtx), nodeAt root ctx.path = some ctx.node →
      typePassF fuel ctx s = s := by
  intro fuel
  induction fuel with
  | zero =>
    intro ctx _
    rfl
  | succ fuel ih =>
    intro ctx hco
    rw [typePassF]
    try dsimp only
    have hdone := (hA ctx.path (by rw [hco]; rfl)).2
    have hr : getDataType ctx s = ((tlookup s.dtAnn ctx.path).getD "", s) :=
      getDataTypeF_id hA (astSize ctx.node) ctx hco
    rw [hr]
    try dsimp only
    rw [setDt_self_of_lookup (getD_of_truthy hdone.1 "").symm.symm]
    exact allKidsWith_id_of ctx ctx.node.children 0 (fun j c hj => by
      have hg : ctx.node.children.get? (0 + j) = some c := by rwa [Nat.zero_add]
      exact ih (childCtx ctx c (0 + j)) (coh_childCtx hco hg))

theorem allKidsWith_id {pass : RuleCtx → AnState → AnState}
    (hp : ∀ c s, pass c s = s) (base : RuleCtx) :
    ∀ (cs : List AstNode) (i : Nat) (s : AnState), allKidsWith pass base i cs s = s := by
  intro cs
  induction cs with
  | nil => intro i s; rfl
  | cons c rest ih =>
    intro i s
    rw [allKidsWith, hp]
    exact ih _ _

theorem analysisPassF_eq_id : ∀ (fuel : Nat) (ctx : RuleCtx) (s : AnState),
    analysisPassF fuel ctx s = s := by
  intro fuel
  induction fuel with
  | zero => intro ctx s; rfl
  | succ fuel ih =>
    intro ctx s
    rw [analysisPassF]
    simp only [analysisRuleMap, List.foldl_nil]
    exact allKidsWith_id (fun c s => ih c s) ctx _ _ _

theorem analysisPass_eq_id (ctx : RuleCtx) (s : AnState) : analysisPass ctx s = s :=
  analysisPassF_eq_id _ ctx s

/-- Run 1 establishes the invariant: after `analyze`, every reachable path
has a scope annotation (set by the scope pass, kept by the type pass) and a
finished dataType annotation (set by the type pass). -/
theorem analyze_annotated (ast : AstNode) (s : AnState) :
    Annotated ast (analyze ast s) := by
  intro q hq
  rw [analyze, analysisPass_eq_id]
  have hcoh : nodeAt ast (mkCtx ast).path = some (mkCtx ast).node := rfl
  have htm := typePassF_master ast (astSize (mkCtx ast).node + 1) (mkCtx ast)
    (scopePass (mkCtx ast) (hoistPass (mkCtx ast) s)) (by omega) hcoh
  constructor
  · have hscope := scopePassF_master (astSize (mkCtx ast).node + 1) (mkCtx ast)
      (hoistPass (mkCtx ast) s) (by omega) q hq
    rw [show (mkCtx ast).path ++ q = q from by simp [mkCtx]] at hscope
    exact htm.1.1 q hscope
  · have hdone := htm.2 q hq
    rwa [show (mkCtx ast).path ++ q = q from by simp [mkCtx]] at hdone

/-- Run 2 is the identity: on an annotated state every pass only reads. -/
theorem analyze_id_of_annotated (ast : AstNode) (s : AnState) (hA : Annotated ast s) :
    analyze ast s = s := by
  have h1 : hoistPass (mkCtx ast) s = s := hoistPassF_id ast s hA _ (mkCtx ast) rfl
  have h2 : scopePass (mkCtx ast) s = s := scopePassF_id ast s hA _ (mkCtx ast) rfl
  have h3 : typePass (mkCtx ast) s = s := typePassF_id ast s hA _ (mkCtx ast) rfl
  rw [analyze, h1, h2, h3, analysisPass_eq_id]

theorem foldl_size_nonneg (l : List (Int × List LogMsg))
    (h : ∀ x ∈ l, 0 ≤ x.1) :
    ∀ acc : Int × List LogMsg, 0 ≤ acc.1 →
      0 ≤ (l.foldl (fun acc r => (acc.1 + r.1, acc.2 ++ r.2)) acc).1 := by
  induction l with
  | nil => intro acc hacc; simpa using hacc
  | cons x xs ih =>
    intro acc hacc
    exact ih (fun y hy => h y (List.mem_cons_of_mem _ hy)) _
      (by have := h x (List.mem_cons_self _ _); simp only; omega)

theorem getSizeAux_nonneg (st : Store) :
    ∀ (fuel : Nat) (v : Variable) (p depth : Nat), 0 ≤ (getSizeAux st fuel v p depth).1 := by
  intro fuel
  induction fuel with
  | zero => intro v p depth; rw [getSizeAux]
  | succ fuel ih =>
    intro v p depth
    rw [getSizeAux]
    split
    · simp
    split
    · simp
    split
    · simp
    split
    · simp
    split
    · simp
    · exact foldl_size_nonneg _
        (by
          intro x hx
          obtain ⟨f, hf, rfl⟩ := List.mem_map.mp hx
          exact ih f f.scope (depth + 1)) _ le_rfl

theorem getSize_nonneg (st : Store) (v : Variable) (p : Nat) (depth : Nat) :
    0 ≤ (getSize st v p depth).1 :=
  getSizeAux_nonneg st _ v p depth

/-- C2: `getSize` terminates on every input, including variables whose struct
type transitively references itself — in this model it is a total function,
accepted by well-founded recursion on `MAX_TYPE_DEPTH + 1 - depth`.  Whenever
the depth parameter exceeds `MAX_TYPE_DEPTH = 16`, `getSize` returns 0
immediately, with no further recursion and no diagnostics, and every computed
size is a finite non-negative number. -/
theorem c2_size_depth_cutoff (st : Store) (v : Variable) (p : Nat) (depth : Nat) :
    0 ≤ (getSize st v p depth).1 ∧
      (MAX_TYPE_DEPTH < depth → getSize st v p depth = (0, [])) := by
  refine ⟨getSize_nonneg st v p depth, fun h => ?_⟩
  rw [getSize]
  rcases Nat.lt_or_ge depth (MAX_TYPE_DEPTH + 2) with hd | hd
  · obtain ⟨fuel, hf⟩ : ∃ fuel, MAX_TYPE_DEPTH + 2 - depth = fuel + 1 :=
      ⟨MAX_TYPE_DEPTH + 1 - depth, by omega⟩
    rw [hf, getSizeAux, if_pos h]
  · rw [show MAX_TYPE_DEPTH + 2 - depth = 0 by omega, getSizeAux]

theorem c2_size_depth_cutoff_witness :
    getSize c2Store c2Var 0 17 = (0, []) ∧
      0 ≤ (getSize c2Store c2Var 0 0).1 ∧ (getSize c2Store c2Var 0 0).1 = 64 :=
  ⟨(c2_size_depth_cutoff c2Store c2Var 0 17).2 (by decide),
   (c2_size_depth_cutoff c2Store c2Var 0 0).1, by decide⟩

/-- C9 counterexample: the claim says a `bool` variable sizes to 0, but the
source\'s switch lists `DataType.Bool` among the 4-byte cases, so `getSize`
of a bool variable is 4 (matching §3 of the spec and the Wasm i32 backing),
not 0. -/
theorem c9_counterexample :
    (getSize [] c9BoolVar 0 0).1 = 4 ∧ ¬ (getSize [] c9BoolVar 0 0).1 = 0 := by decide

/-- C9 amended: `getSize` returns 0 for variables of type `void`, `invalid`
or `type` (unsized primitives); a `bool` variable sizes to 4 bytes (within
the depth bound; past the bound everything sizes to 0). -/
theorem c9_amended (st : Store) (v : Variable) (p : Nat) (depth : Nat) :
    ((v.type = DataType.None ∨ v.type = DataType.Invalid ∨ v.type = DataType.«Type») →
      (getSize st v p depth).1 = 0) ∧
    (v.type = DataType.Bool → depth ≤ MAX_TYPE_DEPTH → getSize st v p depth = (4, [])) := by
  constructor
  · intro h
    rw [getSize]
    rcases Nat.lt_or_ge depth (MAX_TYPE_DEPTH + 2) with hdd | hdd
    · obtain ⟨fuel, hf⟩ : ∃ fuel, MAX_TYPE_DEPTH + 2 - depth = fuel + 1 :=
        ⟨MAX_TYPE_DEPTH + 1 - depth, by omega⟩
      rw [hf, getSizeAux]
      by_cases hd : depth > MAX_TYPE_DEPTH
      · simp [hd]
      · rcases h with h | h | h <;>
          simp [hd, h, DataType.None, DataType.Invalid, DataType.«Type», DataType.Int,
            DataType.UInt, DataType.Float, DataType.Bool, DataType.Long, DataType.ULong,
            DataType.Double, DataType.isPrimitive]
    · rw [show MAX_TYPE_DEPTH + 2 - depth = 0 by omega, getSizeAux]
  · intro h hd
    rw [getSize]
    obtain ⟨fuel, hf⟩ : ∃ fuel, MAX_TYPE_DEPTH + 2 - depth = fuel + 1 :=
      ⟨MAX_TYPE_DEPTH + 1 - depth, by omega⟩
    rw [hf, getSizeAux]
    simp [h, show ¬ depth > MAX_TYPE_DEPTH from Nat.not_lt.mpr hd, DataType.Bool,
      DataType.Int, DataType.UInt, DataType.Float]

theorem c9_amended_witness :
    (getSize [] { node := .none, scope := 0, id := "t", type := DataType.«Type» } 0 0).1 = 0 ∧
      getSize [] c9BoolVar 0 0 = (4, []) :=
  ⟨(c9_amended [] _ 0 0).1 (Or.inr (Or.inr rfl)),
   (c9_amended [] c9BoolVar 0 0).2 rfl (by decide)⟩

/-- C10: the fourth (analysis) pass of `SchwaAnalyzer` is a no-op — the
constructor registers no analysis rules for any AST kind (`analysisRuleMap`
is everywhere empty), so for every input the pass emits no diagnostics and
modifies no node annotation, scope or symbol record, and a full `analyze`
run is exactly the hoist, scope and type passes — every diagnostic of a full
run originates there. -/
theorem c10_analysis_pass_noop :
    (∀ (t : AstType), analysisRuleMap t = []) ∧
    (∀ (ctx : RuleCtx) (s : AnState), analysisPass ctx s = s) ∧
    (∀ (ast : AstNode) (s : AnState),
      analyze ast s = typePass (mkCtx ast) (scopePass (mkCtx ast) (hoistPass (mkCtx ast) s))) :=
  ⟨fun _ => rfl, analysisPass_eq_id,
   fun ast s => by rw [analyze, analysisPass_eq_id]⟩

/-- C8: calling `analyze` a second time on a tree already annotated by a
first call leaves the entire analysis state — every scope and dataType
annotation, the scope arena and the log — exactly as it was, so in
particular every annotation is unchanged and zero additional diagnostics
are appended. -/
theorem c8_analyze_idempotent (ast : AstNode) (s : AnState) :
    analyze ast (analyze ast s) = analyze ast s :=
  analyze_id_of_annotated ast (analyze ast s) (analyze_annotated ast s)

/-- C1 counterexample: the claim says every reachable node\'s dataType ends
as a primitive name, a declared struct name, or `invalid`; but the
`VariableDef` rule returns the raw declared type token, so `var Foo x`
(an undeclared type name) ends the full builtin analyzer run with dataType
`"Foo"` — not a primitive, not a declared struct of the run\'s arena, and
not `invalid`. -/
theorem c1_counterexample :
    tlookup (schwaAnalyze c1Tree).dtAnn [] = some "Foo" ∧
    DataType.isPrimitive "Foo" = false ∧
    declaredStructName (schwaAnalyze c1Tree).store "Foo" = false ∧
    "Foo" ≠ DataType.Invalid := by
  refine ⟨?_, ?_, ?_, ?_⟩
  · set_option maxRecDepth 100000 in decide
  · decide
  · set_option maxRecDepth 100000 in decide
  · decide

/-- C1 amended: after `analyze`, every node reachable from the root has a
non-null scope annotation and a non-empty dataType annotation string — but
that string need not be a primitive or declared struct name (see the
counterexample). -/
theorem c1_amended (ast : AstNode) (s : AnState) (q : Path) (n : AstNode)
    (h : nodeAt ast q = some n) :
    (tlookup (analyze ast s).scopeAnn q).isSome = true ∧
      ∃ v, tlookup (analyze ast s).dtAnn q = some v ∧ v.isEmpty = false := by
  have hA := analyze_annotated ast s q (by rw [h]; rfl)
  exact ⟨hA.1, (dtTruthy_iff _ _).mp hA.2.1⟩

set_option maxRecDepth 100000 in
theorem c1_amended_witness :
    (tlookup (analyze c1Tree initState).scopeAnn []).isSome = true ∧
      ∃ v, tlookup (analyze c1Tree initState).dtAnn [] = some v ∧ v.isEmpty = false :=
  c1_amended c1Tree initState [] c1Tree rfl

/-- C3: the `Assignment` data-type rule (the only rule registered for
`Assignment` nodes).  If the target\'s inner identifier resolves to a
`const` variable the rule logs `Constant globals cannot be assigned to`
and yields `invalid`; otherwise, with both children\'s types non-invalid,
differing types log `Both sides of an assignment must be of the same type`
and yield `invalid`, while equal types yield that common type with no
diagnostic. -/
theorem c3_assignment_rule (eval : RuleCtx → AnState → String × AnState) (ctx : RuleCtx)
    (s : AnState) :
    dtRuleMap AstType.Assignment = [DtRuleTag.assignmentR] ∧
    ((assignTargetResolve ctx s).1 = true →
      applyDtRuleWith eval ctx DtRuleTag.assignmentR s =
        (some DataType.Invalid,
          logErr "Constant globals cannot be assigned to" ctx.node.token
            (assignTargetResolve ctx s).2)) ∧
    (∀ c0 c1 rest, ctx.node.children = c0 :: c1 :: rest →
      (assignTargetResolve ctx s).1 = false →
      (eval (childCtx ctx c0 0) (assignTargetResolve ctx s).2).1 ≠ DataType.Invalid →
      (eval (childCtx ctx c1 1)
        (eval (childCtx ctx c0 0) (assignTargetResolve ctx s).2).2).1 ≠ DataType.Invalid →
      ((eval (childCtx ctx c0 0) (assignTargetResolve ctx s).2).1 ≠
          (eval (childCtx ctx c1 1)
            (eval (childCtx ctx c0 0) (assignTargetResolve ctx s).2).2).1 →
        applyDtRuleWith eval ctx DtRuleTag.assignmentR s =
          (some DataType.Invalid,
            logErr "Both sides of an assignment must be of the same type" ctx.node.token
              (eval (childCtx ctx c1 1)
                (eval (childCtx ctx c0 0) (assignTargetResolve ctx s).2).2).2)) ∧
      ((eval (childCtx ctx c0 0) (assignTargetResolve ctx s).2).1 =
          (eval (childCtx ctx c1 1)
            (eval (childCtx ctx c0 0) (assignTargetResolve ctx s).2).2).1 →
        applyDtRuleWith eval ctx DtRuleTag.assignmentR s =
          (some (eval (childCtx ctx c0 0) (assignTargetResolve ctx s).2).1,
            (eval (childCtx ctx c1 1)
              (eval (childCtx ctx c0 0) (assignTargetResolve ctx s).2).2).2))) := by
  refine ⟨rfl, fun hpre => ?_, fun c0 c1 rest hc hpre h0 h1 => ⟨fun hne => ?_, fun heq => ?_⟩⟩
  · simp only [applyDtRuleWith]
    rw [if_pos hpre]
  · simp only [applyDtRuleWith]
    rw [if_neg (by simp [hpre]), hc]
    try dsimp only
    rw [if_neg (fun hor => hor.elim h0 h1), if_pos hne]
  · simp only [applyDtRuleWith]
    rw [if_neg (by simp [hpre]), hc]
    try dsimp only
    rw [if_neg (fun hor => hor.elim h0 h1), if_neg (not_not_intro heq)]

theorem c3_assignment_rule_witness :
    (assignTargetResolve c3Ctx c3State).1 = true ∧
    applyDtRuleWith getDataType c3Ctx DtRuleTag.assignmentR c3State =
      (some DataType.Invalid,
        logErr "Constant globals cannot be assigned to" c3Ctx.node.token
          (assignTargetResolve c3Ctx c3State).2) :=
  ⟨by decide, (c3_assignment_rule getDataType c3Ctx c3State).2.1 (by decide)⟩

/-- C5: the `Return` data-type rule (the only rule registered for `Return`
nodes).  With one child of type `t` inside an enclosing `FunctionDef` of
declared return type `r`: if `t ≠ r` or `r` is `void` the rule logs the
return-type diagnostic and yields `invalid`; otherwise it yields `t`
silently.  In particular every value-return inside a void function is
diagnosed (take the right disjunct). -/
theorem c5_return_rule (eval : RuleCtx → AnState → String × AnState) (ctx : RuleCtx)
    (s : AnState) (c0 : AstNode) (rest : List AstNode) (p : AstNode)
    (hc : ctx.node.children = c0 :: rest)
    (hp : ctx.ancs.find? (fun a => a.type = AstType.FunctionDef) = some p) :
    dtRuleMap AstType.Return = [DtRuleTag.returnR] ∧
    (((eval (childCtx ctx c0 0) s).1 ≠ p.token.value ∨ p.token.value = DataType.None) →
      applyDtRuleWith eval ctx DtRuleTag.returnR s =
        (some DataType.Invalid,
          logErr ("Type of return value (" ++ (eval (childCtx ctx c0 0) s).1 ++
            ") does not match function " ++ childTokenValue p 0 ++ apos ++
            "s return type (" ++ p.token.value ++ ")") c0.token
            (eval (childCtx ctx c0 0) s).2)) ∧
    ((eval (childCtx ctx c0 0) s).1 = p.token.value → p.token.value ≠ DataType.None →
      applyDtRuleWith eval ctx DtRuleTag.returnR s =
        (some (eval (childCtx ctx c0 0) s).1, (eval (childCtx ctx c0 0) s).2)) := by
  refine ⟨rfl, fun hcond => ?_, fun heq hnv => ?_⟩
  · simp only [applyDtRuleWith]
    rw [hc]
    try dsimp only
    rw [hp]
    try dsimp only
    rw [if_pos hcond]
  · simp only [applyDtRuleWith]
    rw [hc]
    try dsimp only
    rw [hp]
    try dsimp only
    rw [if_neg (by push_neg; exact ⟨heq, hnv⟩)]

theorem c5_return_rule_witness :
    applyDtRuleWith getDataType c5Ctx DtRuleTag.returnR c5State =
      (some DataType.Invalid,
        logErr ("Type of return value (" ++
          (getDataType (childCtx c5Ctx c5RetChild 0) c5State).1 ++
          ") does not match function " ++ childTokenValue c5FuncDef 0 ++ apos ++
          "s return type (" ++ c5FuncDef.token.value ++ ")") c5RetChild.token
          (getDataType (childCtx c5Ctx c5RetChild 0) c5State).2) :=
  (c5_return_rule getDataType c5Ctx c5State c5RetChild [] c5FuncDef rfl rfl).2.1 (Or.inr rfl)

theorem sdAt_append (st : Store) (sd : ScopeData) :
    ∀ p, sdAt (st ++ [sd]) p = sdAt st p ∨
      (sdAt (st ++ [sd]) p = sd ∧ sdAt st p = emptyScopeData) := by
  intro p
  induction st generalizing p with
  | nil =>
    cases p with
    | zero =>
      right
      exact ⟨rfl, rfl⟩
    | succ p2 =>
      left
      rfl
  | cons hd tl ih =>
    cases p with
    | zero =>
      left
      rfl
    | succ p2 =>
      rcases ih p2 with h | h
      · left
        exact h
      · right
        exact h

theorem sdAt_append_funcs (st : Store) (sd : ScopeData) (hf : sd.funcs = []) (p : Nat) :
    (sdAt (st ++ [sd]) p).funcs = (sdAt st p).funcs := by
  rcases sdAt_append st sd p with h | ⟨h1, h2⟩
  · rw [h]
  · rw [h1, h2, hf]
    rfl

theorem sdAt_append_structs (st : Store) (sd : ScopeData) (hf : sd.structs = []) (p : Nat) :
    (sdAt (st ++ [sd]) p).structs = (sdAt st p).structs := by
  rcases sdAt_append st sd p with h | ⟨h1, h2⟩
  · rw [h]
  · rw [h1, h2, hf]
    rfl

/-- C7: declaring a variable, function or struct whose id already exists in
the corresponding map of the declaring scope emits exactly one
redeclaration diagnostic and discards the second record: the map is exactly
as before (for `FunctionDef`/`StructDef` the scope allocated before the
check does not touch the parent\'s maps). -/
theorem c7_redeclaration (ctx : RuleCtx) (p : Nat) (s : AnState) :
    ((tlookup (sdAt s.store p).vars (childTokenValue ctx.node 0)).isSome = true →
      variableDefScopeRule ctx p s =
        (p, logErr ("A variable with the name " ++ jsonStr (childTokenValue ctx.node 0) ++
          " already exists in the current scope") ctx.node.token s)) ∧
    ((tlookup (sdAt s.store p).funcs (childTokenValue ctx.node 0)).isSome = true →
      (sdAt (functionDefScopeRule ctx p s).2.store p).funcs = (sdAt s.store p).funcs ∧
      (functionDefScopeRule ctx p s).2.logs = s.logs ++
        [⟨.Error, "Analyzer",
          "A function with the name " ++ jsonStr (childTokenValue ctx.node 0) ++
            " already exists in the current scope",
          ctx.node.token.row, ctx.node.token.column, ctx.node.token.value.length⟩]) ∧
    ((tlookup (sdAt s.store p).structs (childTokenValue ctx.node 0)).isSome = true →
      (sdAt (structDefScopeRule ctx p s).2.store p).structs = (sdAt s.store p).structs ∧
      (structDefScopeRule ctx p s).2.logs = s.logs ++
        [⟨.Error, "Analyzer",
          "A struct with the name " ++ jsonStr (childTokenValue ctx.node 0) ++
            " already exists in the current scope",
          ctx.node.token.row, ctx.node.token.column, ctx.node.token.value.length⟩]) := by
  refine ⟨fun hdup => ?_, fun hdup => ?_, fun hdup => ?_⟩
  · unfold variableDefScopeRule
    dsimp only
    rw [if_pos hdup]
  · unfold functionDefScopeRule
    dsimp only
    rw [if_pos (by
      rw [show (allocScope s ⟨some (nref ctx), some p, childTokenValue ctx.node 0,
          [], [], [], []⟩).1.store = s.store ++
          [⟨some (nref ctx), some p, childTokenValue ctx.node 0, [], [], [], []⟩] from rfl]
      rw [sdAt_append_funcs s.store
        ⟨some (nref ctx), some p, childTokenValue ctx.node 0, [], [], [], []⟩ rfl p]
      exact hdup)]
    constructor
    · rw [show (logErr ("A function with the name " ++ jsonStr (childTokenValue ctx.node 0) ++
          " already exists in the current scope") ctx.node.token
          (allocScope s ⟨some (nref ctx), some p, childTokenValue ctx.node 0,
            [], [], [], []⟩).1).store =
          s.store ++ [⟨some (nref ctx), some p, childTokenValue ctx.node 0, [], [], [], []⟩]
        from rfl]
      exact sdAt_append_funcs s.store _ rfl p
    · rfl
  · unfold structDefScopeRule
    dsimp only
    rw [if_pos (by
      rw [show (allocScope s ⟨some (nref ctx), some p, childTokenValue ctx.node 0,
          [], [], [], []⟩).1.store = s.store ++
          [⟨some (nref ctx), some p, childTokenValue ctx.node 0, [], [], [], []⟩] from rfl]
      rw [sdAt_append_structs s.store
        ⟨some (nref ctx), some p, childTokenValue ctx.node 0, [], [], [], []⟩ rfl p]
      exact hdup)]
    constructor
    · rw [show (logErr ("A struct with the name " ++ jsonStr (childTokenValue ctx.node 0) ++
          " already exists in the current scope") ctx.node.token
          (allocScope s ⟨some (nref ctx), some p, childTokenValue ctx.node 0,
            [], [], [], []⟩).1).store =
          s.store ++ [⟨some (nref ctx), some p, childTokenValue ctx.node 0, [], [], [], []⟩]
        from rfl]
      exact sdAt_append_structs s.store _ rfl p
    · rfl

theorem c7_redeclaration_witness :
    variableDefScopeRule c7VarCtx 0 c7State =
      (0, logErr ("A variable with the name " ++ jsonStr (childTokenValue c7VarCtx.node 0) ++
        " already exists in the current scope") c7VarCtx.node.token c7State) ∧
    (sdAt (functionDefScopeRule c7FuncCtx 0 c7State).2.store 0).funcs =
      (sdAt c7State.store 0).funcs ∧
    (structDefScopeRule c7StructCtx 0 c7State).2.logs = c7State.logs ++
      [⟨.Error, "Analyzer",
        "A struct with the name " ++ jsonStr (childTokenValue c7StructCtx.node 0) ++
          " already exists in the current scope",
        c7StructCtx.node.token.row, c7StructCtx.node.token.column,
        c7StructCtx.node.token.value.length⟩] :=
  ⟨(c7_redeclaration c7VarCtx 0 c7State).1 (by decide),
   ((c7_redeclaration c7FuncCtx 0 c7State).2.1 (by decide)).1,
   ((c7_redeclaration c7StructCtx 0 c7State).2.2 (by decide)).2⟩

theorem asEffT1_eq (c1 : AstNode) :
    (if (if c1.type = AstType.Type then c1.token.value else DataType.Invalid) = DataType.Bool
      then DataType.Invalid
      else if c1.type = AstType.Type then c1.token.value else DataType.Invalid) =
    asEffT1 c1 := rfl

set_option maxHeartbeats 1600000 in
/-- C6: the `As` data-type rule (registered for `BinaryOp` after the 21
operator rules).  The cast-pair table is exactly `asPairs` and produces the
RHS type; outside the table the node is `invalid`, but the rule logs a
diagnostic only for an `invalid` leg — a pair of two valid types outside
the table (say `int as long`) is silently `invalid`, and a `bool` RHS is
demoted to `invalid` before the table check. -/
theorem c6_as_cast_rule :
    DtRuleTag.asR ∈ dtRuleMap AstType.BinaryOp ∧
    (∀ pr ∈ asPairs, asCastResult pr.1 pr.2 = some pr.2) ∧
    (∀ t0 t1 r, asCastResult t0 t1 = some r → (t0, t1) ∈ asPairs ∧ r = t1) ∧
    (∀ c1, asEffT1 c1 = if c1.type = AstType.Type then
        (if c1.token.value = DataType.Bool then DataType.Invalid else c1.token.value)
      else DataType.Invalid) ∧
    (∀ (eval : RuleCtx → AnState → String × AnState) (ctx : RuleCtx) (s : AnState)
      (c0 c1 : AstNode) (rest : List AstNode),
      dtTruthy s ctx.path = false → ctx.node.token.type = TokenType.As →
      ctx.node.children = c0 :: c1 :: rest →
      (∀ res, asCastResult (eval (childCtx ctx c0 0) s).1 (asEffT1 c1) = some res →
        applyDtRuleWith eval ctx DtRuleTag.asR s =
          (some res, (eval (childCtx ctx c0 0) s).2)) ∧
      (asCastResult (eval (childCtx ctx c0 0) s).1 (asEffT1 c1) = none →
        (eval (childCtx ctx c0 0) s).1 ≠ DataType.Invalid →
        asEffT1 c1 ≠ DataType.Invalid →
        applyDtRuleWith eval ctx DtRuleTag.asR s =
          (some DataType.Invalid, (eval (childCtx ctx c0 0) s).2))) := by
  refine ⟨by decide, by decide, ?_, ?_, ?_⟩
  · intro t0 t1 r h
    unfold asCastResult at h
    by_cases h1 : t0 = DataType.Int ∧ t1 = DataType.UInt
    · rw [if_pos h1] at h
      obtain ⟨rfl, rfl⟩ := h1
      injection h with h99
      exact ⟨by decide, h99.symm⟩
    · rw [if_neg h1] at h
      by_cases h2 : t0 = DataType.Int ∧ t1 = DataType.Float
      · rw [if_pos h2] at h
        obtain ⟨rfl, rfl⟩ := h2
        injection h with h99
        exact ⟨by decide, h99.symm⟩
      · rw [if_neg h2] at h
        by_cases h3 : t0 = DataType.UInt ∧ t1 = DataType.Int
        · rw [if_pos h3] at h
          obtain ⟨rfl, rfl⟩ := h3
          injection h with h99
          exact ⟨by decide, h99.symm⟩
        · rw [if_neg h3] at h
          by_cases h4 : t0 = DataType.UInt ∧ t1 = DataType.Float
          · rw [if_pos h4] at h
            obtain ⟨rfl, rfl⟩ := h4
            injection h with h99
            exact ⟨by decide, h99.symm⟩
          · rw [if_neg h4] at h
            by_cases h5 : t0 = DataType.Long ∧ t1 = DataType.ULong
            · rw [if_pos h5] at h
              obtain ⟨rfl, rfl⟩ := h5
              injection h with h99
              exact ⟨by decide, h99.symm⟩
            · rw [if_neg h5] at h
              by_cases h6 : t0 = DataType.Long ∧ t1 = DataType.Double
              · rw [if_pos h6] at h
                obtain ⟨rfl, rfl⟩ := h6
                injection h with h99
                exact ⟨by decide, h99.symm⟩
              · rw [if_neg h6] at h
                by_cases h7 : t0 = DataType.ULong ∧ t1 = DataType.Long
                · rw [if_pos h7] at h
                  obtain ⟨rfl, rfl⟩ := h7
                  injection h with h99
                  exact ⟨by decide, h99.symm⟩
                · rw [if_neg h7] at h
                  by_cases h8 : t0 = DataType.ULong ∧ t1 = DataType.Double
                  · rw [if_pos h8] at h
                    obtain ⟨rfl, rfl⟩ := h8
                    injection h with h99
                    exact ⟨by decide, h99.symm⟩
                  · rw [if_neg h8] at h
                    by_cases h9 : t0 = DataType.Float ∧ t1 = DataType.Int
                    · rw [if_pos h9] at h
                      obtain ⟨rfl, rfl⟩ := h9
                      injection h with h99
                      exact ⟨by decide, h99.symm⟩
                    · rw [if_neg h9] at h
                      by_cases h10 : t0 = DataType.Float ∧ t1 = DataType.UInt
                      · rw [if_pos h10] at h
                        obtain ⟨rfl, rfl⟩ := h10
                        injection h with h99
                        exact ⟨by decide, h99.symm⟩
                      · rw [if_neg h10] at h
                        by_cases h11 : t0 = DataType.Double ∧ t1 = DataType.Long
                        · rw [if_pos h11] at h
                          obtain ⟨rfl, rfl⟩ := h11
                          injection h with h99
                          exact ⟨by decide, h99.symm⟩
                        · rw [if_neg h11] at h
                          by_cases h12 : t0 = DataType.Double ∧ t1 = DataType.ULong
                          · rw [if_pos h12] at h
                            obtain ⟨rfl, rfl⟩ := h12
                            injection h with h99
                            exact ⟨by decide, h99.symm⟩
                          · rw [if_neg h12] at h
                            exact absurd h (by simp)
  · intro c1
    unfold asEffT1
    by_cases ht : c1.type = AstType.Type
    · simp [ht]
    · simp [ht]
  · intro eval ctx s c0 c1 rest hf htok hc
    constructor
    · intro res hres
      simp only [applyDtRuleWith]
      rw [if_neg (by simp [hf, htok]), hc]
      try dsimp only
      rw [asEffT1_eq, hres]
    · intro hres h0 h1
      simp only [applyDtRuleWith]
      rw [if_neg (by simp [hf, htok]), hc]
      try dsimp only
      rw [asEffT1_eq, hres]
      try dsimp only
      rw [if_neg h0, if_neg h1]

set_option maxRecDepth 100000 in
/-- C6 counterexample: `1 as long` — value type `int`, RHS type `long`, a
pair outside the table — ends `invalid` with NO diagnostic, against the
claim\'s `Other unsupported pairs → diagnostic, invalid`. -/
theorem c6_counterexample :
    (getDataType (mkCtx c6Tree) c6State).1 = DataType.Invalid ∧
    (getDataType (mkCtx c6Tree) c6State).2.logs = [] := ⟨by decide, by decide⟩

set_option maxRecDepth 100000 in
theorem c6_as_cast_rule_witness :
    applyDtRuleWith getDataType (mkCtx c6Tree) DtRuleTag.asR c6State =
      (some DataType.Invalid,
        (getDataType (childCtx (mkCtx c6Tree) c6Lit 0) c6State).2) ∧
    asCastResult DataType.Int DataType.UInt = some DataType.UInt :=
  ⟨(c6_as_cast_rule.2.2.2.2 getDataType (mkCtx c6Tree) c6State c6Lit c6TypeNode []
      (by decide) rfl rfl).2 (by decide) (by decide) (by decide),
   c6_as_cast_rule.2.1 (DataType.Int, DataType.UInt) (by decide)⟩

theorem checkArgsWith_nil {eval : RuleCtx → AnState → String × AnState} {fid : String}
    {bp : Path} {ancs : List AstNode} (args : List AstNode) (i : Nat) (valid : Bool)
    (s : AnState) : checkArgsWith eval fid bp ancs [] args i valid s = (valid, s) := by
  rw [checkArgsWith]
  intro _ _ _ _ h
  cases h

theorem checkArgsWith_nilArgs {eval : RuleCtx → AnState → String × AnState} {fid : String}
    {bp : Path} {ancs : List AstNode} (ps : List Variable) (i : Nat) (valid : Bool)
    (s : AnState) : checkArgsWith eval fid bp ancs ps [] i valid s = (valid, s) := by
  cases ps with
  | nil => exact checkArgsWith_nil [] i valid s
  | cons p ps2 =>
    rw [checkArgsWith]
    intro _ _ _ _ _ h
    cases h

theorem checkArgsWith_cons {eval : RuleCtx → AnState → String × AnState} {fid : String}
    {bp : Path} {ancs : List AstNode} (prm : Variable) (ps : List Variable) (a : AstNode)
    (args : List AstNode) (i : Nat) (valid : Bool) (s : AnState) :
    checkArgsWith eval fid bp ancs (prm :: ps) (a :: args) i valid s =
      checkArgsWith eval fid bp ancs ps args (i + 1)
        (if (eval ⟨a, bp ++ [i], ancs⟩ s).1 ≠ prm.type then false else valid)
        (if (eval ⟨a, bp ++ [i], ancs⟩ s).1 ≠ prm.type then
          logErr ("The " ++ formatOrdinal (i + 1) ++ " parameter (" ++ jsonStr prm.id ++
            ") of function " ++ jsonStr fid ++ " is type " ++ prm.type ++ ", not " ++
            (eval ⟨a, bp ++ [i], ancs⟩ s).1) a.token (eval ⟨a, bp ++ [i], ancs⟩ s).2
         else (eval ⟨a, bp ++ [i], ancs⟩ s).2) := by
  rw [checkArgsWith]
  split
  · rfl
  · rfl

theorem checkArgsWith_false {eval : RuleCtx → AnState → String × AnState} (fid : String)
    (bp : Path) (ancs : List AstNode) :
    ∀ (ps : List Variable) (args : List AstNode) (i : Nat) (s : AnState),
      (checkArgsWith eval fid bp ancs ps args i false s).1 = false := by
  intro ps
  induction ps with
  | nil =>
    intro args i s
    rw [checkArgsWith_nil]
  | cons prm ps2 ih =>
    intro args i s
    match args with
    | [] => rw [checkArgsWith_nilArgs]
    | a :: args2 =>
      rw [checkArgsWith_cons]
      split
      · exact ih _ _ _
      · exact ih _ _ _

theorem checkArgsWith_logsGrow {eval : RuleCtx → AnState → String × AnState}
    (hm : ∀ c s2, ∃ d, (eval c s2).2.logs = s2.logs ++ d) (fid : String) (bp : Path)
    (ancs : List AstNode) :
    ∀ (ps : List Variable) (args : List AstNode) (i : Nat) (valid : Bool) (s : AnState),
      ∃ d, (checkArgsWith eval fid bp ancs ps args i valid s).2.logs = s.logs ++ d := by
  intro ps
  induction ps with
  | nil =>
    intro args i valid s
    rw [checkArgsWith_nil]
    exact ⟨[], by simp⟩
  | cons prm ps2 ih =>
    intro args i valid s
    match args with
    | [] =>
      rw [checkArgsWith_nilArgs]
      exact ⟨[], by simp⟩
    | a :: args2 =>
      rw [checkArgsWith_cons]
      obtain ⟨d1, hd1⟩ := hm ⟨a, bp ++ [i], ancs⟩ s
      split
      · obtain ⟨d2, hd2⟩ := ih args2 (i + 1) false
          (logErr ("The " ++ formatOrdinal (i + 1) ++ " parameter (" ++ jsonStr prm.id ++
            ") of function " ++ jsonStr fid ++ " is type " ++ prm.type ++ ", not " ++
            (eval ⟨a, bp ++ [i], ancs⟩ s).1) a.token (eval ⟨a, bp ++ [i], ancs⟩ s).2)
        refine ⟨d1 ++ [argMismatchMsg fid prm i (eval ⟨a, bp ++ [i], ancs⟩ s).1 a.token]
          ++ d2, ?_⟩
        rw [hd2]
        simp [logErr, argMismatchMsg, hd1]
      · obtain ⟨d2, hd2⟩ := ih args2 (i + 1) valid (eval ⟨a, bp ++ [i], ancs⟩ s).2
        exact ⟨d1 ++ d2, by rw [hd2, hd1, List.append_assoc]⟩

theorem checkArgsWith_reports {eval : RuleCtx → AnState → String × AnState}
    (hm : ∀ c s2, ∃ d, (eval c s2).2.logs = s2.logs ++ d) (fid : String) (bp : Path)
    (ancs : List AstNode) :
    ∀ (ps1 : List Variable) (as1 : List AstNode) (prm : Variable) (ps2 : List Variable)
      (a : AstNode) (as2 : List AstNode) (i : Nat) (valid : Bool) (s : AnState),
      ps1.length = as1.length →
      (eval ⟨a, bp ++ [i + as1.length], ancs⟩
        (checkArgsWith eval fid bp ancs ps1 as1 i valid s).2).1 ≠ prm.type →
      (checkArgsWith eval fid bp ancs (ps1 ++ prm :: ps2) (as1 ++ a :: as2) i valid s).1
        = false ∧
      argMismatchMsg fid prm (i + as1.length)
        (eval ⟨a, bp ++ [i + as1.length], ancs⟩
          (checkArgsWith eval fid bp ancs ps1 as1 i valid s).2).1 a.token ∈
        (checkArgsWith eval fid bp ancs (ps1 ++ prm :: ps2) (as1 ++ a :: as2) i valid s).2.logs := by
  intro ps1
  induction ps1 with
  | nil =>
    intro as1 prm ps2 a as2 i valid s hlen hmis
    have h0 : as1 = [] := by
      cases as1 with
      | nil => rfl
      | cons b bs => cases hlen
    subst h0
    rw [checkArgsWith_nil] at hmis
    simp only [List.length_nil, Nat.add_zero] at hmis
    rw [List.nil_append, List.nil_append, checkArgsWith_cons]
    rw [if_pos hmis, if_pos hmis]
    constructor
    · exact checkArgsWith_false fid bp ancs ps2 as2 (i + 1) _
    · obtain ⟨d, hd⟩ := checkArgsWith_logsGrow hm fid bp ancs ps2 as2 (i + 1) false
        (logErr ("The " ++ formatOrdinal (i + 1) ++ " parameter (" ++ jsonStr prm.id ++
          ") of function " ++ jsonStr fid ++ " is type " ++ prm.type ++ ", not " ++
          (eval ⟨a, bp ++ [i], ancs⟩ s).1) a.token (eval ⟨a, bp ++ [i], ancs⟩ s).2)
      rw [hd]
      rw [checkArgsWith_nil]
      simp only [List.length_nil, Nat.add_zero]
      simp [logErr, argMismatchMsg]
  | cons p ps1r ih =>
    intro as1 prm ps2 a as2 i valid s hlen hmis
    match as1 with
    | [] => cases hlen
    | b :: as1r =>
      have hlen2 : ps1r.length = as1r.length := by simpa using hlen
      have hidx : i + (b :: as1r).length = i + 1 + as1r.length := by
        simp
        omega
      rw [List.cons_append, List.cons_append, checkArgsWith_cons,
        checkArgsWith_cons p ps1r b as1r i valid s]
      rw [hidx]
      rw [checkArgsWith_cons p ps1r b as1r i valid s] at hmis
      rw [hidx] at hmis
      exact ih as1r prm ps2 a as2 (i + 1) _ _ hlen2 hmis

theorem checkArgsWith_all_match {eval : RuleCtx → AnState → String × AnState} (fid : String)
    (bp : Path) (ancs : List AstNode) :
    ∀ (ps : List Variable) (args : List AstNode) (i : Nat) (valid : Bool) (s : AnState),
      (∀ ps1 prm ps2 as1 a as2, ps = ps1 ++ prm :: ps2 → args = as1 ++ a :: as2 →
        ps1.length = as1.length →
        (eval ⟨a, bp ++ [i + as1.length], ancs⟩
          (checkArgsWith eval fid bp ancs ps1 as1 i valid s).2).1 = prm.type) →
      (checkArgsWith eval fid bp ancs ps args i valid s).1 = valid := by
  intro ps
  induction ps with
  | nil =>
    intro args i valid s _
    rw [checkArgsWith_nil]
  | cons p psr ih =>
    intro args i valid s hall
    match args with
    | [] => rw [checkArgsWith_nilArgs]
    | b :: argsr =>
      have h0 : (eval ⟨b, bp ++ [i], ancs⟩ s).1 = p.type := by
        have hh := hall [] p psr [] b argsr rfl rfl rfl
        rw [checkArgsWith_nil] at hh
        simpa using hh
      rw [checkArgsWith_cons, if_neg (not_not_intro h0), if_neg (not_not_intro h0)]
      refine ih argsr (i + 1) valid (eval ⟨b, bp ++ [i], ancs⟩ s).2 ?_
      intro ps1 prm ps2 as1 a as2 hps has hlen
      have hidx : i + 1 + as1.length = i + (b :: as1).length := by
        simp
        omega
      have hh := hall (p :: ps1) prm ps2 (b :: as1) a as2 (by rw [hps, List.cons_append])
        (by rw [has, List.cons_append]) (by simpa using hlen)
      rw [checkArgsWith_cons, if_neg (not_not_intro h0), if_neg (not_not_intro h0)] at hh
      rwa [← hidx] at hh

/-- C4: the `FunctionCall` data-type rule (the only rule registered for
`FunctionCall` nodes).  When the callee resolves to a function: an argument
count different from the parameter count logs a diagnostic stating both
counts and yields `invalid` without evaluating any argument; on matching
counts the rule runs the argument loop `checkArgs`, whose flag decides
between the declared return type and `invalid`.  The loop does not stop at
the first mismatch: every position whose evaluated type differs from the
declared parameter type contributes its own diagnostic to the log and
forces the flag false, and the flag stays `valid` when every position
matches. -/
theorem c4_function_call_rule :
    dtRuleMap AstType.FunctionCall = [DtRuleTag.functionCallR] ∧
    (∀ (eval : RuleCtx → AnState → String × AnState) (ctx : RuleCtx) (s : AnState)
      (c0 c1 : AstNode) (rest : List AstNode) (ic : RuleCtx) (func : Func),
      ctx.node.children = c0 :: c1 :: rest →
      getIdentifierCtx (childCtx ctx c0 0) = some ic →
      Scope.getFunction (getScope ic s).2.store (getScope ic s).1 ic.node.token.value
        = some func →
      (func.params.length ≠ c1.children.length →
        applyDtRuleWith eval ctx DtRuleTag.functionCallR s =
          (some DataType.Invalid,
            logErr ("Function " ++ jsonStr func.id ++ " takes " ++
              toString func.params.length ++ " arguments, not " ++
              toString c1.children.length) ctx.node.token (getScope ic s).2)) ∧
      (func.params.length = c1.children.length →
        applyDtRuleWith eval ctx DtRuleTag.functionCallR s =
          (some (if (checkArgsWith eval func.id (ctx.path ++ [1])
              (c1 :: ctx.node :: ctx.ancs) func.params c1.children 0 true
              (getScope ic s).2).1 then func.type else DataType.Invalid),
            (checkArgsWith eval func.id (ctx.path ++ [1]) (c1 :: ctx.node :: ctx.ancs)
              func.params c1.children 0 true (getScope ic s).2).2))) ∧
    (∀ (eval : RuleCtx → AnState → String × AnState),
      (∀ c s2, ∃ d, (eval c s2).2.logs = s2.logs ++ d) →
      ∀ (fid : String) (bp : Path) (ancs : List AstNode) (ps1 : List Variable)
        (as1 : List AstNode) (prm : Variable) (ps2 : List Variable) (a : AstNode)
        (as2 : List AstNode) (i : Nat) (valid : Bool) (s : AnState),
        ps1.length = as1.length →
        (eval ⟨a, bp ++ [i + as1.length], ancs⟩
          (checkArgsWith eval fid bp ancs ps1 as1 i valid s).2).1 ≠ prm.type →
        (checkArgsWith eval fid bp ancs (ps1 ++ prm :: ps2) (as1 ++ a :: as2) i valid s).1
          = false ∧
        argMismatchMsg fid prm (i + as1.length)
          (eval ⟨a, bp ++ [i + as1.length], ancs⟩
            (checkArgsWith eval fid bp ancs ps1 as1 i valid s).2).1 a.token ∈
          (checkArgsWith eval fid bp ancs (ps1 ++ prm :: ps2) (as1 ++ a :: as2)
            i valid s).2.logs) ∧
    (∀ (eval : RuleCtx → AnState → String × AnState) (fid : String) (bp : Path)
      (ancs : List AstNode) (ps : List Variable) (args : List AstNode) (i : Nat)
      (valid : Bool) (s : AnState),
      (∀ ps1 prm ps2 as1 a as2, ps = ps1 ++ prm :: ps2 → args = as1 ++ a :: as2 →
        ps1.length = as1.length →
        (eval ⟨a, bp ++ [i + as1.length], ancs⟩
          (checkArgsWith eval fid bp ancs ps1 as1 i valid s).2).1 = prm.type) →
      (checkArgsWith eval fid bp ancs ps args i valid s).1 = valid) := by
  refine ⟨rfl, ?_, ?_, ?_⟩
  · intro eval ctx s c0 c1 rest ic func hc hic hfunc
    constructor
    · intro hlen
      simp only [applyDtRuleWith]
      rw [hc]
      try dsimp only
      rw [hic]
      try dsimp only
      rw [hfunc]
      try dsimp only
      rw [if_pos hlen]
    · intro hlen
      simp only [applyDtRuleWith]
      rw [hc]
      try dsimp only
      rw [hic]
      try dsimp only
      rw [hfunc]
      try dsimp only
      rw [if_neg (not_not_intro hlen)]
  · intro eval hm fid bp ancs ps1 as1 prm ps2 a as2 i valid s hlen hmis
    exact checkArgsWith_reports hm fid bp ancs ps1 as1 prm ps2 a as2 i valid s hlen hmis
  · intro eval fid bp ancs ps args i valid s hall
    exact checkArgsWith_all_match fid bp ancs ps args i valid s hall

set_option maxRecDepth 100000 in
theorem c4_function_call_rule_witness :
    applyDtRuleWith getDataType c4Ctx DtRuleTag.functionCallR c4State =
      (some DataType.Invalid,
        logErr ("Function " ++ jsonStr c4Func.id ++ " takes " ++
          toString c4Func.params.length ++ " arguments, not " ++
          toString c4Args.children.length) c4Ctx.node.token (getScope c4Ic c4State).2) ∧
    ((checkArgsWith c4EvalConst "f" [1] [] ([] ++ c4Prm :: []) ([] ++ c4ArgNode :: [])
        0 true c4State).1 = false ∧
      argMismatchMsg "f" c4Prm (0 + List.length ([] : List AstNode))
        (c4EvalConst ⟨c4ArgNode, [1] ++ [0 + List.length ([] : List AstNode)], []⟩
          (checkArgsWith c4EvalConst "f" [1] [] [] [] 0 true c4State).2).1
        c4ArgNode.token ∈
      (checkArgsWith c4EvalConst "f" [1] [] ([] ++ c4Prm :: []) ([] ++ c4ArgNode :: [])
        0 true c4State).2.logs) ∧
    (checkArgsWith c4EvalConst "g" [1] [] [] [] 0 true c4State).1 = true :=
  ⟨(c4_function_call_rule.2.1 getDataType c4Ctx c4State c4FuncId c4Args [] c4Ic c4Func
      rfl rfl rfl).1 (by decide),
   c4_function_call_rule.2.2.1 c4EvalConst (fun c s2 => ⟨[], (List.append_nil s2.logs).symm⟩)
     "f" [1] [] [] [] c4Prm [] c4ArgNode [] 0 true c4State rfl (by decide),
   c4_function_call_rule.2.2.2 c4EvalConst "g" [1] [] [] [] 0 true c4State
     (fun ps1 prm ps2 as1 a as2 hps has hlen => by simp at hps)⟩

end Schwa

